import Mathlib

/-!
# Verification of the SBPL chain environment and the trajectory execution manager

Shallow embedding of:
* `src/moveit_core/sbpl_interface/src/environment_chain3d.cpp`
* `src/moveit_ros/trajectory_execution_manager/src/trajectory_execution_manager.cpp`

Angles, durations and timestamps are modelled as rationals; machine `int`
values are modelled as `Int` (with `INT_MAX = 2^31 - 1` where the source
returns it).  External collaborators (collision checker, distance field,
controller manager, controller handles) are modelled as oracle inputs.
-/

namespace SbplInterface

/-- The constant `LONG_RANGE_JOINT_DIFF = .1` from environment_chain3d.cpp. -/
def longRangeJointDiff : ℚ := 1/10

/-- The constant `JOINT_DIST_MULT = 1000.0` from environment_chain3d.cpp. -/
def jointDistMult : ℤ := 1000

/-- `INT_MAX`, returned by the joint-distance helpers on a size mismatch. -/
def intMax : ℤ := 2^31 - 1

/-- Modelled from the spec: a joint motion model (`JointMotionWrapper` lives in
the missing header `environment_chain3d.h`).  A joint is either bounded with
limits, or continuous (wrapping mod 2π).  Since π is irrational, the continuous
wrap is parameterised by a rational stand-in `piQ` carried by the environment. -/
inductive JointModel where
  | bounded (lower upper : ℚ)
  | continuous
deriving DecidableEq, Repr

/-- Wrap `x` into the interval `(-p, p]` (the spec's "(−π, π]"), i.e. subtract
the unique multiple of `2p` that lands there. -/
def wrapToPi (p x : ℚ) : ℚ := x - 2 * p * ⌈x / (2 * p) - 1/2⌉

/-- Modelled from the spec: `discretise(angle)` → integer bucket at resolution
δ (`convertJointAnglesToCoord` lives in the missing header). -/
def discretise (a : ℚ) : ℤ := ⌊a / longRangeJointDiff⌋

/-- Modelled from the spec: per-joint integer distance
`integerDistance(a,b,δ) = ceil(|Δ|/δ)`, where Δ is the shortest signed angular
difference for continuous joints and `b − a` for bounded ones
(`JointMotionWrapper::getIntegerDistance` lives in the missing header). -/
def integerDistance (piQ : ℚ) (jm : JointModel) (a b : ℚ) : ℤ :=
  match jm with
  | .continuous => ⌈|wrapToPi piQ (b - a)| / longRangeJointDiff⌉
  | .bounded _ _ => ⌈|b - a| / longRangeJointDiff⌉

/-- Modelled from the spec: `SingleJointMotionPrimitive::generateSuccessorState`
(missing header): copy the config, advance joint `j` by `delta`; wrap for
continuous joints, reject out-of-limits results for bounded joints. -/
def generateSuccessorState (piQ : ℚ) (jm : JointModel) (angles : List ℚ)
    (j : ℕ) (delta : ℚ) : Option (List ℚ) :=
  match angles[j]? with
  | none => none
  | some a =>
    match jm with
    | .continuous => some (angles.set j (wrapToPi piQ (a + delta)))
    | .bounded lo hi =>
      if a + delta < lo ∨ hi < a + delta then none
      else some (angles.set j (a + delta))

/-- The static configuration of an `EnvironmentChain3D`: the active joints (in
declaration order), the rational stand-in for π, and the two external oracles
used by `GetSuccs` — the collision checker (`checkCollisionDistanceField` at
the successor configuration) and the grid lookup (`getGridXYZInt` applied to
the tip-link pose at the successor configuration). -/
structure EnvConfig where
  joints : List JointModel
  piQ : ℚ
  collides : List ℚ → Bool
  gridXYZ : List ℚ → Option (ℤ × ℤ × ℤ)

/-- `convertJointAnglesToCoord`: discretise every joint angle. -/
def convertJointAnglesToCoord (angles : List ℚ) : List ℤ :=
  angles.map discretise

/-- `EnvChain3DHashEntry` (from the missing header, per the spec's StateTable
data model): stable state ID, discretised coord, exact angles, end-effector
voxel and the producing action index. -/
structure EnvChain3DHashEntry where
  stateID : ℕ
  coord : List ℤ
  angles : List ℚ
  xyz : ℤ × ℤ × ℤ
  action : ℕ
deriving DecidableEq, Repr

/-- `EnvChain3DPlanningData`: the `state_ID_to_coord_table_` (position =
stateID) together with the distinguished start/goal entry pointers (modelled
as optional stateIDs; they are null before setup). -/
structure PlanningData where
  table : List EnvChain3DHashEntry
  startID : Option ℕ
  goalID : Option ℕ
deriving DecidableEq, Repr

/-- The empty planning data a fresh environment starts with. -/
def PlanningData.empty : PlanningData := ⟨[], none, none⟩

/-- Modelled from the spec: `lookup(coord)` returns the entry with this coord
or nothing; the hash key is the coord alone (`getHashEntry` lives in the
missing header). -/
def getHashEntry (d : PlanningData) (coord : List ℤ) : Option EnvChain3DHashEntry :=
  d.table.find? (fun e => e.coord = coord)

/-- Modelled from the spec: `addEntry` appends a new entry, assigns
`stateID = current size` and returns it (`addHashEntry` in the missing
header). -/
def addHashEntry (d : PlanningData) (coord : List ℤ) (angles : List ℚ)
    (xyz : ℤ × ℤ × ℤ) (action : ℕ) : EnvChain3DHashEntry × PlanningData :=
  let e : EnvChain3DHashEntry :=
    { stateID := d.table.length, coord := coord, angles := angles,
      xyz := xyz, action := action }
  (e, { d with table := d.table ++ [e] })

/-- `SizeofCreatedEnv()`: the number of entries in the state table. -/
def sizeofCreatedEnv (d : PlanningData) : ℕ := d.table.length

/-- `getJointDistanceIntegerSum`: `INT_MAX` on a size mismatch, otherwise the
sum of the per-joint integer distances at δ = `LONG_RANGE_JOINT_DIFF`. -/
def getJointDistanceIntegerSum (env : EnvConfig) (angles1 angles2 : List ℚ) : ℤ :=
  if angles1.length ≠ angles2.length then intMax
  else ((env.joints.zip (angles1.zip angles2)).map
    (fun x => integerDistance env.piQ x.1 x.2.1 x.2.2)).sum

/-- `getJointDistanceIntegerMax`: `INT_MAX` on a size mismatch, otherwise the
maximum of the per-joint integer distances (starting from 0). -/
def getJointDistanceIntegerMax (env : EnvConfig) (angles1 angles2 : List ℚ) : ℤ :=
  if angles1.length ≠ angles2.length then intMax
  else ((env.joints.zip (angles1.zip angles2)).map
    (fun x => integerDistance env.piQ x.1 x.2.1 x.2.2)).foldl max 0

/-- `getEndEffectorHeuristic` on the two entries' stored angle vectors:
the integer joint-distance sum scaled by `JOINT_DIST_MULT`. -/
def getEndEffectorHeuristic (env : EnvConfig) (fromE toE : EnvChain3DHashEntry) : ℤ :=
  getJointDistanceIntegerSum env fromE.angles toE.angles * jointDistMult

/-- `calculateCost`: the constant 1000 edge cost. -/
def calculateCost : ℤ := 1000

/-- `setMotionPrimitives`: for each active joint, one `+δ_long` primitive then
one `−δ_long` primitive, in joint order. -/
def possibleActions (env : EnvConfig) : List (ℕ × ℚ) :=
  (List.range env.joints.length).flatMap
    (fun i => [(i, longRangeJointDiff), (i, -longRangeJointDiff)])

/-- The outcome kinds of `setupForMotionPlan` (`moveit_msgs::MoveItErrorCodes`
values actually assigned by the function). -/
inductive SetupResult where
  | success
  | collisionCheckingUnavailable
  | startStateInCollision
  | invalidRobotState
  | goalInCollision
  | invalidGoalConstraints
deriving DecidableEq, Repr

/-- The oracle inputs consumed by `setupForMotionPlan`, in the order the
source consults them: the two hybrid collision-object casts, the start-state
collision check, the distance-field size comparison, the start joint values
and tip-link voxel, the goal-state collision check, and the goal joint values
(built from the joint constraints) and goal tip-link voxel. -/
structure SetupInput where
  hyWorldOK : Bool
  hyRobotOK : Bool
  startCollides : Bool
  fieldSizeMismatch : Bool
  startAngles : List ℚ
  startXYZ : Option (ℤ × ℤ × ℤ)
  goalCollides : Bool
  goalAngles : List ℚ
  goalXYZ : Option (ℤ × ℤ × ℤ)
deriving DecidableEq, Repr

/-- `EnvironmentChain3D::setupForMotionPlan`, reduced to its effect on the
planning data.  The checks happen in source order; the start entry is inserted
(action index 0) before the goal state is collision-checked, and the goal
entry is inserted unconditionally at the very end.  BFS wall construction and
the BFS run have no effect on the state table and are omitted. -/
def setupForMotionPlan (inp : SetupInput) : SetupResult × PlanningData :=
  if ¬inp.hyWorldOK then (.collisionCheckingUnavailable, .empty)
  else if ¬inp.hyRobotOK then (.collisionCheckingUnavailable, .empty)
  else if inp.startCollides then (.startStateInCollision, .empty)
  else if inp.fieldSizeMismatch then (.collisionCheckingUnavailable, .empty)
  else
    let startCoords := convertJointAnglesToCoord inp.startAngles
    match inp.startXYZ with
    | none => (.invalidRobotState, .empty)
    | some sxyz =>
      let (sEntry, d1) := addHashEntry .empty startCoords inp.startAngles sxyz 0
      let d1 := { d1 with startID := some sEntry.stateID }
      if inp.goalCollides then (.goalInCollision, d1)
      else
        let goalCoords := convertJointAnglesToCoord inp.goalAngles
        match inp.goalXYZ with
        | none => (.invalidGoalConstraints, d1)
        | some gxyz =>
          let (gEntry, d2) := addHashEntry d1 goalCoords inp.goalAngles gxyz 0
          (.success, { d2 with goalID := some gEntry.stateID })

/-- The inner loop body of `GetSuccs` over the action list (paired with the
running action index `i`): each action generates a candidate, which is pruned
on generation failure, collision, or out-of-bounds voxel; a surviving
candidate with integer max-distance 1 to the goal is identified with the goal
entry, every other one is looked up by coord and added only on a miss.  Each
surviving candidate contributes `(stateID, calculateCost)`. -/
def getSuccsLoop (env : EnvConfig) (goalAngles srcAngles : List ℚ) (g : ℕ) :
    List (ℕ × ℚ) → ℕ → PlanningData → List (ℕ × ℤ) × PlanningData
  | [], _, d => ([], d)
  | (j, delta) :: rest, i, d =>
    match env.joints[j]? with
    | none => getSuccsLoop env goalAngles srcAngles g rest (i+1) d
    | some jm =>
      match generateSuccessorState env.piQ jm srcAngles j delta with
      | none => getSuccsLoop env goalAngles srcAngles g rest (i+1) d
      | some succAngles =>
        let maxDist := getJointDistanceIntegerMax env succAngles goalAngles
        let succCoord := convertJointAnglesToCoord succAngles
        if env.collides succAngles then
          getSuccsLoop env goalAngles srcAngles g rest (i+1) d
        else
          match env.gridXYZ succAngles with
          | none => getSuccsLoop env goalAngles srcAngles g rest (i+1) d
          | some xyz =>
            let (sid, d') :=
              if maxDist = 1 then (g, d)
              else
                match getHashEntry d succCoord with
                | some e => (e.stateID, d)
                | none =>
                  let (e, d') := addHashEntry d succCoord succAngles xyz i
                  (e.stateID, d')
            let (out, dF) := getSuccsLoop env goalAngles srcAngles g rest (i+1) d'
            ((sid, calculateCost) :: out, dF)

/-- `EnvironmentChain3D::GetSuccs`: the goal state is absorbing, an
out-of-range source ID yields no successors, and otherwise the action loop
runs on the source entry's stored angles.  Before setup the goal pointer is
null (the source would dereference it); the model returns no successors in
that unreachable configuration. -/
def getSuccs (env : EnvConfig) (d : PlanningData) (sourceID : ℕ) :
    List (ℕ × ℤ) × PlanningData :=
  match d.goalID with
  | none => ([], d)
  | some g =>
    if sourceID = g then ([], d)
    else if d.table.length ≤ sourceID then ([], d)
    else
      match d.table[sourceID]? with
      | none => ([], d)
      | some hashEntry =>
        match hashEntry.angles, d.table[g]? with
        | srcAngles, some goalEntry =>
          getSuccsLoop env goalEntry.angles srcAngles g (possibleActions env) 0 d
        | _, none => ([], d)

/-- A placeholder hash entry used as the default of indexed accesses. -/
def dummyEntry : EnvChain3DHashEntry :=
  { stateID := 0, coord := [], angles := [], xyz := (0, 0, 0), action := 0 }

/-- Distinct stateIDs carry distinct discretised coords, except that the
goal entry may duplicate the coord of an earlier entry (the amended form of
the StateTable uniqueness invariant). -/
def coordsDistinctExceptGoal (d : PlanningData) : Prop :=
  ∀ i, i < d.table.length → ∀ j, j < d.table.length → i < j →
    (d.table.getD i dummyEntry).coord = (d.table.getD j dummyEntry).coord →
    d.goalID = some j

instance (d : PlanningData) : Decidable (coordsDistinctExceptGoal d) := by
  unfold coordsDistinctExceptGoal; infer_instance

/-- Table well-formedness: each entry's stored stateID is its position (the
way `addEntry` assigns them). -/
def idsAligned (d : PlanningData) : Prop :=
  ∀ i, i < d.table.length → (d.table.getD i dummyEntry).stateID = i

instance (d : PlanningData) : Decidable (idsAligned d) := by
  unfold idsAligned; infer_instance

/-- Table well-formedness: each entry's coord is the discretisation of its
stored angles (true of every entry the environment creates). -/
def coordsCoherent (d : PlanningData) : Prop :=
  ∀ i, i < d.table.length →
    (d.table.getD i dummyEntry).coord =
      convertJointAnglesToCoord ((d.table.getD i dummyEntry).angles)

instance (d : PlanningData) : Decidable (coordsCoherent d) := by
  unfold coordsCoherent; infer_instance

/-- A surviving candidate as the claim for C6 describes it: the producing
action index, the candidate angles, their discretised coord, the
end-effector voxel, and the max integer distance to the goal. -/
structure Candidate where
  action : ℕ
  angles : List ℚ
  coord : List ℤ
  xyz : ℤ × ℤ × ℤ
  maxDist : ℤ
deriving DecidableEq, Repr

/-- The claim-side filter for C6: the candidates that survive primitive
generation, the collision check and the voxel-bounds check, in action
order. -/
def survivingCandidates (env : EnvConfig) (goalAngles srcAngles : List ℚ) :
    List (ℕ × ℚ) → ℕ → List Candidate
  | [], _ => []
  | (j, delta) :: rest, i =>
    let tail := survivingCandidates env goalAngles srcAngles rest (i+1)
    match env.joints[j]? with
    | none => tail
    | some jm =>
      match generateSuccessorState env.piQ jm srcAngles j delta with
      | none => tail
      | some succAngles =>
        if env.collides succAngles then tail
        else
          match env.gridXYZ succAngles with
          | none => tail
          | some xyz =>
            { action := i, angles := succAngles,
              coord := convertJointAnglesToCoord succAngles, xyz := xyz,
              maxDist := getJointDistanceIntegerMax env succAngles goalAngles }
              :: tail

/-- The claim-side registration rule for C6 for one surviving candidate: a
max integer distance of exactly 1 is identified with the goal state's ID;
otherwise the coord is looked up, and a fresh entry is added only when the
lookup misses. -/
def registerCandidate (g : ℕ) (d : PlanningData) (c : Candidate) :
    ℕ × PlanningData :=
  if c.maxDist = 1 then (g, d)
  else
    match getHashEntry d c.coord with
    | some e => (e.stateID, d)
    | none =>
      let (e, d') := addHashEntry d c.coord c.angles c.xyz c.action
      (e.stateID, d')

/-- Register the surviving candidates left to right, emitting each resulting
state ID with the constant edge cost. -/
def registerAll (g : ℕ) : List Candidate → PlanningData →
    List (ℕ × ℤ) × PlanningData
  | [], d => ([], d)
  | c :: rest, d =>
    let (sid, d') := registerCandidate g d c
    let (out, dF) := registerAll g rest d'
    ((sid, calculateCost) :: out, dF)

/-- A concrete setup input on one joint whose goal state collides while every
earlier check passes. -/
def exampleGoalCollisionInput : SetupInput :=
  { hyWorldOK := true, hyRobotOK := true, startCollides := false,
    fieldSizeMismatch := false, startAngles := [0], startXYZ := some (1, 1, 1),
    goalCollides := true, goalAngles := [0], goalXYZ := some (1, 1, 1) }

/-- A concrete setup input that succeeds and whose start (0) and goal (1/20)
joint values discretise to the same coordinate bucket 0. -/
def exampleCoincidentInput : SetupInput :=
  { hyWorldOK := true, hyRobotOK := true, startCollides := false,
    fieldSizeMismatch := false, startAngles := [0], startXYZ := some (1, 1, 1),
    goalCollides := false, goalAngles := [1/20], goalXYZ := some (1, 1, 1) }

/-- A concrete one-joint environment with a permissive collision checker and
grid, used to instantiate the generic theorems. -/
def exampleEnv : EnvConfig :=
  { joints := [.bounded (-1) 1], piQ := 4,
    collides := fun _ => false, gridXYZ := fun _ => some (1, 1, 1) }


/-- A two-joint environment for the goal-absorption counterexample. -/
def exampleAbsorbEnv : EnvConfig :=
  { joints := [.bounded (-1) 1, .bounded (-1) 1], piQ := 4,
    collides := fun _ => false, gridXYZ := fun _ => some (0, 0, 0) }

/-- A table whose state 0 (angles (0.1, 0.08)) has a −δ candidate one
integer step from the goal (0, 0) in every joint. -/
def exampleAbsorbData : PlanningData :=
  { table := [ { stateID := 0, coord := [1, 0], angles := [1/10, 8/100],
                 xyz := (0, 0, 0), action := 0 },
               { stateID := 1, coord := [0, 0], angles := [0, 0],
                 xyz := (0, 0, 0), action := 0 } ],
    startID := some 0, goalID := some 1 }

/-- A one-joint environment for the hash-aliasing counterexample. -/
def exampleAliasEnv : EnvConfig :=
  { joints := [.bounded (-1) 1], piQ := 4,
    collides := fun _ => false, gridXYZ := fun _ => some (0, 0, 0) }

/-- A table whose state 0 (angle 0.41) has a −δ candidate (0.31) that
aliases with the stored entry 1 (angle 0.30, same coord bucket 3). -/
def exampleAliasData : PlanningData :=
  { table := [ { stateID := 0, coord := [4], angles := [41/100],
                 xyz := (0, 0, 0), action := 0 },
               { stateID := 1, coord := [3], angles := [3/10],
                 xyz := (0, 0, 0), action := 0 },
               { stateID := 2, coord := [0], angles := [0],
                 xyz := (0, 0, 0), action := 0 } ],
    startID := some 0, goalID := some 2 }

end SbplInterface

namespace TrajectoryExecution

/-- `moveit_controller_manager::ExecutionStatus` values. -/
inductive ExecutionStatus where
  | unknown
  | running
  | succeeded
  | preempted
  | timedOut
  | aborted
  | failed
deriving DecidableEq, Repr

/-- `ControllerInformation` as kept in `known_controllers_`, combined with the
(loaded, active, default) state triple fetched from the controller manager.
`std::set` joint sets are modelled as lists with membership as the set
relation. -/
structure ControllerInformation where
  name : String
  joints : List String
  isDefault : Bool
  isActive : Bool
  isLoaded : Bool
deriving DecidableEq, Repr

/-- The registry `known_controllers_` (a name-keyed map, modelled as a list
searched by name). -/
abbrev Registry := List ControllerInformation

/-- Lookup in `known_controllers_` by name.  A missing name behaves like
`std::map::operator[]`: a default-constructed entry with no joints and no
state flags. -/
def findInfo (reg : Registry) (n : String) : ControllerInformation :=
  (reg.find? (fun ci => ci.name = n)).getD
    { name := n, joints := [], isDefault := false, isActive := false, isLoaded := false }

/-- The `overlapping_controllers_` relation built by
`reloadControllerInformation`: two distinct registry entries overlap iff
their joint sets intersect. -/
def controllersOverlap (reg : Registry) (a b : String) : Bool :=
  a ≠ b ∧ ((findInfo reg a).joints.filter (fun j => j ∈ (findInfo reg b).joints)) ≠ []

/-- `checkControllerCombination`: the union of the selected controllers'
joint sets must include all actuated joints. -/
def checkControllerCombination (reg : Registry) (selected : List String)
    (actuatedJoints : List String) : Bool :=
  let combinedJoints := selected.flatMap (fun n => (findInfo reg n).joints)
  actuatedJoints.all (fun j => j ∈ combinedJoints)

/-- `generateControllerCombination`: depth-first enumeration of the
combinations of exactly `controllerCount` controllers drawn in order from
`available` (extending the already `selected` prefix), skipping any
controller that overlaps one already selected, and keeping combinations
that cover the actuated joints. -/
def generateControllerCombination (reg : Registry) (actuatedJoints : List String)
    (controllerCount : ℕ) (selected : List String) :
    List String → List (List String)
  | [] =>
    if selected.length = controllerCount then
      if checkControllerCombination reg selected actuatedJoints then [selected] else []
    else []
  | c :: rest =>
    if selected.length = controllerCount then
      if checkControllerCombination reg selected actuatedJoints then [selected] else []
    else
      (if selected.any (fun s => controllersOverlap reg c s) then []
       else generateControllerCombination reg actuatedJoints controllerCount
              (selected ++ [c]) rest)
      ++ generateControllerCombination reg actuatedJoints controllerCount selected rest

/-- The ranking data of `OrderPotentialControllerCombination` for one option:
number of default controllers, total joints, number of active controllers. -/
def optionRank (reg : Registry) (opt : List String) : ℕ × ℕ × ℕ :=
  ((opt.filter (fun n => (findInfo reg n).isDefault)).length,
   (opt.map (fun n => (findInfo reg n).joints.length)).sum,
   (opt.filter (fun n => (findInfo reg n).isActive)).length)

/-- The strict weak order of `OrderPotentialControllerCombination`: more
defaults first, then fewer joints, then fewer active controllers.  The C++
`std::sort` leaves the relative order of ties unspecified; the model fixes a
stable insertion sort, which is one legitimate refinement. -/
def rankBefore (reg : Registry) (a b : List String) : Prop :=
  let ra := optionRank reg a
  let rb := optionRank reg b
  rb.1 < ra.1 ∨ (ra.1 = rb.1 ∧ (ra.2.1 < rb.2.1 ∨ (ra.2.1 = rb.2.1 ∧ ra.2.2 ≤ rb.2.2)))

instance (reg : Registry) : DecidableRel (rankBefore reg) := by
  intro a b; unfold rankBefore; infer_instance

/-- `areControllersActive`: all listed controllers are known and active
(a name missing from the registry yields `false`, matching the source's
explicit `it == known_controllers_.end()` check). -/
def areControllersActive (reg : Registry) (controllers : List String) : Bool :=
  controllers.all (fun n => (reg.find? (fun ci => ci.name = n)).elim false
    (fun ci => ci.isActive))

/-- `findControllers`: enumerate the valid combinations of the requested
size; none means failure, a single option is returned directly, and with
several options the ranked best is returned — except that when controllers
are not managed, an already-active option (in rank order) is preferred. -/
def findControllers (reg : Registry) (manageControllers : Bool)
    (actuatedJoints : List String) (controllerCount : ℕ)
    (available : List String) : Option (List String) :=
  let selectedOptions :=
    generateControllerCombination reg actuatedJoints controllerCount [] available
  match selectedOptions with
  | [] => none
  | [single] => some single
  | _ :: _ :: _ =>
    let sorted := selectedOptions.insertionSort (rankBefore reg)
    if ¬manageControllers then
      match sorted.find? (fun o => areControllersActive reg o) with
      | some o => some o
      | none => sorted.head?
    else sorted.head?

/-- The inner retry loop of `selectControllers` for unmanaged controllers:
look for the first size `j ∈ [j, j+fuel)` at which `findControllers` yields a
fully active option. -/
def searchActiveOption (reg : Registry) (actuatedJoints : List String)
    (available : List String) : ℕ → ℕ → Option (List String)
  | _, 0 => none
  | j, fuel + 1 =>
    match findControllers reg false actuatedJoints j available with
    | some opt =>
      if areControllersActive reg opt then some opt
      else searchActiveOption reg actuatedJoints available (j+1) fuel
    | none => searchActiveOption reg actuatedJoints available (j+1) fuel

/-- The outer loop of `selectControllers`: try sizes `i, i+1, …` (`fuel`
counts the remaining sizes).  At the first size that succeeds, an unmanaged
host that got an inactive selection searches the larger sizes for a fully
active alternative and keeps the original one otherwise. -/
def selectControllersLoop (reg : Registry) (manageControllers : Bool)
    (actuatedJoints : List String) (available : List String) :
    ℕ → ℕ → Option (List String)
  | _, 0 => none
  | i, fuel + 1 =>
    match findControllers reg manageControllers actuatedJoints i available with
    | some sel =>
      if ¬manageControllers ∧ ¬areControllersActive reg sel then
        match searchActiveOption reg actuatedJoints available (i+1)
            (available.length - i) with
        | some other => some other
        | none => some sel
      else some sel
    | none => selectControllersLoop reg manageControllers actuatedJoints available
        (i+1) fuel

/-- `TrajectoryExecutionManager::selectControllers`: try combination sizes
`1 … |available|` in increasing order. -/
def selectControllers (reg : Registry) (manageControllers : Bool)
    (actuatedJoints : List String) (available : List String) :
    Option (List String) :=
  selectControllersLoop reg manageControllers actuatedJoints available 1
    available.length

/-- A registry for the controller-selection example: "A" actuates both
joints but is inactive, while the active "B" and "C" each actuate one. -/
def exampleSelRegistry : Registry :=
  [{ name := "A", joints := ["j1", "j2"], isDefault := false,
     isActive := false, isLoaded := true },
   { name := "B", joints := ["j1"], isDefault := false,
     isActive := true, isLoaded := true },
   { name := "C", joints := ["j2"], isDefault := false,
     isActive := true, isLoaded := true }]

/-- One `trajectory_msgs::JointTrajectoryPoint`; durations are rationals in
seconds. -/
structure JointTrajectoryPoint where
  timeFromStart : ℚ
  positions : List ℚ
  velocities : List ℚ
  accelerations : List ℚ
deriving DecidableEq, Repr

/-- A `trajectory_msgs::JointTrajectory` with its header stamp. -/
structure JointTrajectory where
  stamp : ℚ
  jointNames : List String
  points : List JointTrajectoryPoint
deriving DecidableEq, Repr

/-- One multi-DOF trajectory point; the pose payload is opaque to the split
logic and modelled by an identifier. -/
structure MultiDOFPoint where
  timeFromStart : ℚ
  poses : List ℕ
deriving DecidableEq, Repr

/-- A `moveit_msgs::MultiDOFJointTrajectory` with its header stamp. -/
structure MultiDOFTrajectory where
  stamp : ℚ
  jointNames : List String
  frameIds : List String
  childFrameIds : List String
  points : List MultiDOFPoint
deriving DecidableEq, Repr

/-- A `moveit_msgs::RobotTrajectory`. -/
structure RobotTrajectory where
  jointTrajectory : JointTrajectory
  multiDofTrajectory : MultiDOFTrajectory
deriving DecidableEq, Repr

/-- The default-constructed (empty) robot trajectory a part starts as. -/
def RobotTrajectory.empty : RobotTrajectory :=
  { jointTrajectory := { stamp := 0, jointNames := [], points := [] },
    multiDofTrajectory :=
      { stamp := 0, jointNames := [], frameIds := [], childFrameIds := [],
        points := [] } }

/-- Projection `positions[k] = source[bijection[k]]` used per point; a missing
index yields the `std::vector` default value 0 (unreachable when the names
come from the intersection). -/
def projectOnto (bijection : List ℕ) (values : List ℚ) : List ℚ :=
  bijection.map (fun k => values.getD k 0)

/-- The single-DOF part built for one controller by `distributeTrajectory`
when the intersection `jnames` of its joints with the trajectory's joint
names is non-empty: the header is copied, and every input point is projected
onto `jnames` keeping `time_from_start` and projecting positions, velocities
and accelerations exactly when the input arrays are non-empty. -/
def splitJointPart (traj : JointTrajectory) (jnames : List String) :
    JointTrajectory :=
  let bijection := jnames.map (fun n => traj.jointNames.indexOf n)
  { stamp := traj.stamp
    jointNames := jnames
    points := traj.points.map (fun p =>
      { timeFromStart := p.timeFromStart
        positions := if p.positions = [] then [] else projectOnto bijection p.positions
        velocities := if p.velocities = [] then [] else projectOnto bijection p.velocities
        accelerations :=
          if p.accelerations = [] then [] else projectOnto bijection p.accelerations }) }

/-- The multi-DOF part built for one controller when the multi-DOF
intersection is non-empty: frame ids are projected (missing source entries
keep the resized default ""), and each point keeps `time_from_start` and
projects the poses. -/
def splitMultiDofPart (traj : MultiDOFTrajectory) (jnames : List String) :
    MultiDOFTrajectory :=
  let bijection := jnames.map (fun n => traj.jointNames.indexOf n)
  { stamp := 0
    jointNames := jnames
    frameIds := bijection.map (fun k => traj.frameIds.getD k "")
    childFrameIds := bijection.map (fun k => traj.childFrameIds.getD k "")
    points := traj.points.map (fun p =>
      { timeFromStart := p.timeFromStart
        poses := bijection.map (fun k => p.poses.getD k 0) }) }

/-- The loop body of `distributeTrajectory` for one controller: an unknown
controller fails; otherwise the default-constructed part receives the
multi-DOF and/or single-DOF projections exactly when the respective
joint-name intersections are non-empty (an empty intersection leaves the
empty part, with only a warning). -/
def distributePart (reg : Registry) (trajectory : RobotTrajectory)
    (c : String) : Option RobotTrajectory :=
  match reg.find? (fun ci => ci.name = c) with
  | none => none
  | some ci =>
    let intersectMdof := ci.joints.filter
      (fun j => j ∈ trajectory.multiDofTrajectory.jointNames)
    let intersectSingle := ci.joints.filter
      (fun j => j ∈ trajectory.jointTrajectory.jointNames)
    let part := RobotTrajectory.empty
    let part :=
      if intersectMdof ≠ [] then
        { part with multiDofTrajectory :=
            splitMultiDofPart trajectory.multiDofTrajectory intersectMdof }
      else part
    let part :=
      if intersectSingle ≠ [] then
        { part with jointTrajectory :=
            splitJointPart trajectory.jointTrajectory intersectSingle }
      else part
    some part

/-- `TrajectoryExecutionManager::distributeTrajectory`: one part per
controller, failing as a whole when any controller is unknown. -/
def distributeTrajectory (reg : Registry) (trajectory : RobotTrajectory)
    (controllers : List String) : Option (List RobotTrajectory) :=
  controllers.mapM (distributePart reg trajectory)

/-- The last `time_from_start` of a point list (0 when empty, as in the
source's guarded `points.back()` accesses). -/
def lastTimeFromStart (points : List JointTrajectoryPoint) : ℚ :=
  ((points.getLast?).map (fun p => p.timeFromStart)).getD 0

/-- The last multi-DOF `time_from_start` (0 when empty). -/
def lastTimeFromStartMdof (points : List MultiDOFPoint) : ℚ :=
  ((points.getLast?).map (fun p => p.timeFromStart)).getD 0

/-- The per-part duration bound computed by `executePart` (lines 781-803):
for a part with a non-empty single-DOF point list, the positive part of each
header's stamp offset (single-DOF, then max'ed with multi-DOF), plus the
larger of the two last points' `time_from_start`; parts whose single-DOF
point list is empty contribute 0. -/
def partExpectedDuration (currentTime : ℚ) (part : RobotTrajectory) : ℚ :=
  if part.jointTrajectory.points = [] then 0
  else
    let d1 := if currentTime < part.jointTrajectory.stamp
      then part.jointTrajectory.stamp - currentTime else 0
    let d2 := if currentTime < part.multiDofTrajectory.stamp
      then max d1 (part.multiDofTrajectory.stamp - currentTime) else d1
    d2 + max (lastTimeFromStart part.jointTrajectory.points)
             (lastTimeFromStartMdof part.multiDofTrajectory.points)

/-- The expected-duration budget of a context: the maximum of the per-part
durations (starting at 0), scaled by `1.1` and padded by `0.5` s. -/
def expectedTrajectoryDuration (currentTime : ℚ) (parts : List RobotTrajectory) : ℚ :=
  (parts.foldl (fun acc p => max (partExpectedDuration currentTime p) acc) 0)
    * (11/10) + 1/2

/-- A concrete two-controller registry used to instantiate the generic
theorems. -/
def exampleRegistry : Registry :=
  [ { name := "left", joints := ["j1", "j2"], isDefault := true,
      isActive := true, isLoaded := true },
    { name := "right", joints := ["j3"], isDefault := false,
      isActive := false, isLoaded := true } ]

/-- A concrete two-point trajectory over joints j1, j2. -/
def exampleTrajectory : RobotTrajectory :=
  { jointTrajectory :=
      { stamp := 0, jointNames := ["j1", "j2"],
        points :=
          [ { timeFromStart := 1, positions := [1/2, 1/3],
              velocities := [], accelerations := [] },
            { timeFromStart := 2, positions := [1, 2/3],
              velocities := [], accelerations := [] } ] },
    multiDofTrajectory :=
      { stamp := 0, jointNames := [], frameIds := [], childFrameIds := [],
        points := [] } }

/-- The worker-visible execution state guarded by `execution_state_mutex_`:
the completion flag and `last_execution_status_`. -/
structure WorkerState where
  complete : Bool
  lastStatus : ExecutionStatus
deriving DecidableEq, Repr

/-- The observable behaviour of one controller handle during the wait phase
of `executePart`: whether `waitForExecution(budget)` returned true, whether
the wall clock had exceeded the budget when it returned false, whether an
external stop set the completion flag before this handle's checks, and the
handle's reported last execution status. -/
structure HandleWaitBehaviour where
  waitOK : Bool
  overBudget : Bool
  extComplete : Bool
  status : ExecutionStatus
deriving DecidableEq, Repr

/-- The wait loop of `executePart` (lines 831-854): a handle whose wait
failed while execution is not complete and the budget is exceeded triggers
`stopExecution` (which sets completion and PREEMPTED) and then overwrites the
status with TIMED_OUT; a set completion flag breaks the loop with a failed
result; a handle reporting a non-SUCCEEDED status records that status and
fails the result without breaking. -/
def waitLoop (st : WorkerState) (result : Bool) :
    List HandleWaitBehaviour → WorkerState × Bool
  | [] => (st, result)
  | h :: rest =>
    let complete0 := st.complete || h.extComplete
    let next : WorkerState :=
      if ¬h.waitOK ∧ ¬complete0 ∧ h.overBudget then
        { complete := true, lastStatus := .timedOut }
      else { complete := complete0, lastStatus := st.lastStatus }
    if next.complete then (next, false)
    else if h.status ≠ .succeeded then
      waitLoop { next with lastStatus := h.status } false rest
    else waitLoop next result rest

/-- The send loop of `executePart` (lines 743-773): attempt the parts in
order; return the indices attempted and the index of the first failed send
(an exception from `sendTrajectory` counts as failure), if any. -/
def sendLoop : List Bool → ℕ → List ℕ × Option ℕ
  | [], _ => ([], none)
  | ok :: rest, i =>
    if ok then
      let (sent, failed) := sendLoop rest (i+1)
      (i :: sent, failed)
    else ([i], some i)

/-- The oracle inputs of one `executePart` call: the outcome of
`ensureActiveControllers`, the per-part `sendTrajectory` outcomes, and the
per-handle wait behaviours. -/
structure ExecutePartInput where
  ensureActiveOK : Bool
  sendOK : List Bool
  waits : List HandleWaitBehaviour
deriving DecidableEq, Repr

/-- The outcome of one `executePart` call: the final worker state, the
return value, the part indices whose `sendTrajectory` was attempted, the
handle indices cancelled by a send failure, and the `active_handles_`
content on return. -/
structure ExecutePartResult where
  state : WorkerState
  returned : Bool
  sentParts : List ℕ
  cancelledParts : List ℕ
  activeHandles : List ℕ
deriving DecidableEq, Repr

/-- `TrajectoryExecutionManager::executePart`: activation failure or an
already-set completion flag return false immediately; a send failure at part
`i` cancels exactly the previously sent parts `0 … i−1`, clears the active
handles and sets ABORTED; otherwise the wait loop supervises the handles and
the active handles are cleared on the way out. -/
def executePart (inp : ExecutePartInput) (st : WorkerState) : ExecutePartResult :=
  if ¬inp.ensureActiveOK then
    { state := st, returned := false, sentParts := [], cancelledParts := [],
      activeHandles := [] }
  else if st.complete then
    { state := st, returned := false, sentParts := [], cancelledParts := [],
      activeHandles := [] }
  else
    let (sent, failed) := sendLoop inp.sendOK 0
    match failed with
    | some i =>
      { state := { st with lastStatus := .aborted }, returned := false,
        sentParts := sent, cancelledParts := List.range i, activeHandles := [] }
    | none =>
      let (stF, result) := waitLoop st true inp.waits
      { state := stF, returned := result, sentParts := sent,
        cancelledParts := [], activeHandles := [] }

/-- The context loop of `executeThread` (lines 698-700): run the contexts in
order, stopping after the first one whose `executePart` fails or that leaves
the completion flag set. -/
def runContexts (st : WorkerState) : List ExecutePartInput → WorkerState
  | [] => st
  | inp :: rest =>
    let r := executePart inp st
    if ¬r.returned ∨ r.state.complete then r.state
    else runContexts r.state rest

/-- The externally observable outcome of `executeThread`. -/
structure ExecuteThreadResult where
  lastStatus : ExecutionStatus
  queueCleared : Bool
  callbackInvoked : Bool
  notified : Bool
deriving DecidableEq, Repr

/-- `TrajectoryExecutionManager::executeThread`: a completion flag already
set at thread start records ABORTED and returns at once (no clearing, no
notification, no callback); otherwise the status is reset to SUCCEEDED, the
contexts run in order, the queue is cleared iff `auto_clear`, and waiters
and the callback are notified. -/
def executeThread (completeAtStart : Bool) (contexts : List ExecutePartInput)
    (autoClear : Bool) : ExecuteThreadResult :=
  if completeAtStart then
    { lastStatus := .aborted, queueCleared := false, callbackInvoked := false,
      notified := false }
  else
    let stF := runContexts { complete := false, lastStatus := .succeeded } contexts
    { lastStatus := stF.lastStatus, queueCleared := autoClear,
      callbackInvoked := true, notified := true }

/-- The per-part bound as worded by the claim for C3: the larger of the
positive header-stamp offset and the last point's `time_from_start`. -/
def claimPartDuration (currentTime : ℚ) (part : RobotTrajectory) : ℚ :=
  max (max (part.jointTrajectory.stamp - currentTime) 0)
      (lastTimeFromStart part.jointTrajectory.points)

/-- The per-context budget as worded by the claim for C3 (to be compared
with the source's `expectedTrajectoryDuration`). -/
def claimExpectedDuration (currentTime : ℚ) (parts : List RobotTrajectory) : ℚ :=
  ((parts.map (claimPartDuration currentTime)).foldl max 0) * (11/10) + 1/2

/-- The per-part bound the source actually computes, restated: 0 for a part
with no single-DOF points, otherwise the larger positive header offset
PLUS the larger of the two last `time_from_start` values. -/
def amendedPartDuration (currentTime : ℚ) (part : RobotTrajectory) : ℚ :=
  if part.jointTrajectory.points = [] then 0
  else
    max (max (part.jointTrajectory.stamp - currentTime) 0)
        (max (part.multiDofTrajectory.stamp - currentTime) 0)
    + max (lastTimeFromStart part.jointTrajectory.points)
          (lastTimeFromStartMdof part.multiDofTrajectory.points)

/-- The amended per-context budget: the maximum of the per-part sums,
scaled by 1.1 and padded by 0.5 s. -/
def amendedExpectedDuration (currentTime : ℚ) (parts : List RobotTrajectory) : ℚ :=
  ((parts.map (amendedPartDuration currentTime)).foldl max 0) * (11/10) + 1/2

end TrajectoryExecution


namespace SbplInterface

theorem getHashEntry_none_coord (d : PlanningData) (c : List ℤ)
    (h : getHashEntry d c = none) : ∀ e ∈ d.table, e.coord ≠ c := by
  intro e he
  have := List.find?_eq_none.mp h e he
  simpa using this

theorem coordsDistinctExceptGoal_add (d : PlanningData) (c : List ℤ)
    (a : List ℚ) (x : ℤ × ℤ × ℤ) (n : ℕ)
    (hd : coordsDistinctExceptGoal d) (hnone : getHashEntry d c = none) :
    coordsDistinctExceptGoal (addHashEntry d c a x n).2 := by
  intro i hi j hj hij hcoord
  simp only [addHashEntry, List.length_append, List.length_cons,
    List.length_nil] at hi hj
  rcases Nat.lt_succ_iff_lt_or_eq.mp hj with hjlt | hjeq
  · have hilt : i < d.table.length := lt_trans hij hjlt
    simp only [addHashEntry] at hcoord ⊢
    rw [List.getD_append _ _ _ _ hilt, List.getD_append _ _ _ _ hjlt] at hcoord
    exact hd i hilt j hjlt hij hcoord
  · subst hjeq
    have hilt : i < d.table.length := hij
    simp only [addHashEntry] at hcoord
    rw [List.getD_append _ _ _ _ hilt,
      List.getD_append_right _ _ _ _ (le_refl _), Nat.sub_self,
      List.getD_cons_zero] at hcoord
    have hmem : d.table.getD i dummyEntry ∈ d.table := by
      rw [List.getD_eq_getElem d.table dummyEntry hilt]
      exact List.getElem_mem hilt
    exact absurd hcoord (getHashEntry_none_coord d c hnone _ hmem)

theorem getSuccsLoop_coordsDistinct (env : EnvConfig) (gA sA : List ℚ) (g : ℕ)
    (acts : List (ℕ × ℚ)) :
    ∀ i d, coordsDistinctExceptGoal d →
      coordsDistinctExceptGoal (getSuccsLoop env gA sA g acts i d).2 ∧
      (getSuccsLoop env gA sA g acts i d).2.goalID = d.goalID := by
  induction acts with
  | nil => intro i d h; exact ⟨h, rfl⟩
  | cons act rest ih =>
    obtain ⟨j, delta⟩ := act
    intro i d h
    unfold getSuccsLoop
    cases hjm : env.joints[j]? with
    | none => exact ih (i+1) d h
    | some jm =>
      dsimp only
      cases hgen : generateSuccessorState env.piQ jm sA j delta with
      | none => exact ih (i+1) d h
      | some succAngles =>
        dsimp only
        split
        · exact ih (i+1) d h
        · cases hxyz : env.gridXYZ succAngles with
          | none => exact ih (i+1) d h
          | some xyz =>
            dsimp only
            split
            · exact ih (i+1) d h
            · cases hfind : getHashEntry d (convertJointAnglesToCoord succAngles) with
              | some e => exact ih (i+1) d h
              | none =>
                have hadd := coordsDistinctExceptGoal_add d
                  (convertJointAnglesToCoord succAngles) succAngles xyz i h hfind
                have hrec := ih (i+1) _ hadd
                exact ⟨hrec.1, hrec.2⟩

theorem longRangeJointDiff_pos : (0:ℚ) < longRangeJointDiff := by
  norm_num [longRangeJointDiff]

theorem discretise_add_delta (a : ℚ) :
    discretise (a + longRangeJointDiff) = discretise a + 1 := by
  unfold discretise
  have h : (a + longRangeJointDiff) / longRangeJointDiff
      = a / longRangeJointDiff + ((1:ℤ):ℚ) := by
    rw [add_div, div_self (ne_of_gt longRangeJointDiff_pos)]
    norm_num
  rw [h, Int.floor_add_int]

theorem discretise_sub_delta (a : ℚ) :
    discretise (a - longRangeJointDiff) = discretise a - 1 := by
  unfold discretise
  have h : (a - longRangeJointDiff) / longRangeJointDiff
      = a / longRangeJointDiff + ((-1:ℤ):ℚ) := by
    rw [sub_div, div_self (ne_of_gt longRangeJointDiff_pos)]
    push_cast
    ring
  rw [h, Int.floor_add_int]
  ring

theorem discretise_shift_ge (a c : ℚ) (m : ℤ) (hc : longRangeJointDiff * m ≤ c) :
    discretise a + m ≤ discretise (a + c) := by
  unfold discretise
  have hδ := longRangeJointDiff_pos
  have h1 : a / longRangeJointDiff + (m:ℚ) ≤ (a + c) / longRangeJointDiff := by
    rw [add_div]
    have h2 : (m:ℚ) ≤ c / longRangeJointDiff := (le_div_iff₀ hδ).2 (by linarith)
    linarith
  calc discretise a + m = ⌊a / longRangeJointDiff + (m:ℚ)⌋ := by
        rw [show ((m:ℚ)) = ((m:ℤ):ℚ) by norm_cast, Int.floor_add_int]
        rfl
    _ ≤ ⌊(a + c) / longRangeJointDiff⌋ := Int.floor_le_floor h1

theorem discretise_shift_le (a c : ℚ) (m : ℤ) (hc : c ≤ -(longRangeJointDiff * m)) :
    discretise (a + c) ≤ discretise a - m := by
  unfold discretise
  have hδ := longRangeJointDiff_pos
  have h1 : (a + c) / longRangeJointDiff ≤ a / longRangeJointDiff + (-m:ℚ) := by
    rw [add_div]
    have h2 : c / longRangeJointDiff ≤ (-m:ℚ) := (div_le_iff₀ hδ).2 (by linarith)
    linarith
  calc ⌊(a + c) / longRangeJointDiff⌋ ≤ ⌊a / longRangeJointDiff + (-m:ℚ)⌋ :=
        Int.floor_le_floor h1
    _ = discretise a - m := by
        rw [show ((-m:ℚ)) = ((-m:ℤ):ℚ) by norm_cast, Int.floor_add_int]
        unfold discretise
        ring

theorem wrapToPi_bounds (p : ℚ) (hp : 0 < p) (x : ℚ) :
    -p < wrapToPi p x ∧ wrapToPi p x ≤ p := by
  have h2p : (0:ℚ) < 2 * p := by linarith
  set c : ℚ := (⌈x / (2*p) - 1/2⌉ : ℚ) with hc
  have hge : x / (2*p) - 1/2 ≤ c := by rw [hc]; exact Int.le_ceil _
  have hlt : c < x / (2*p) - 1/2 + 1 := by rw [hc]; exact Int.ceil_lt_add_one _
  have hx1 : x ≤ 2*p*c + p := by
    have h3 := (div_le_iff₀ h2p).1 (show x/(2*p) ≤ c + 1/2 by linarith)
    nlinarith
  have hx2 : 2*p*c - p < x := by
    have h3 := (lt_div_iff₀ h2p).1 (show c - 1/2 < x/(2*p) by linarith)
    nlinarith
  unfold wrapToPi
  rw [← hc]
  constructor
  · linarith
  · linarith

theorem abs_wrapToPi_le_abs_sub (p : ℚ) (hp : 0 < p) (x : ℚ) (k : ℤ) :
    |wrapToPi p x| ≤ |x - 2*p*k| := by
  set k0 : ℤ := ⌈x / (2*p) - 1/2⌉ with hk0
  have hw : wrapToPi p x = x - 2*p*(k0:ℚ) := by unfold wrapToPi; rw [← hk0]
  by_cases hkk : k = k0
  · subst hkk
    rw [← hw]
  · have hb := wrapToPi_bounds p hp x
    have habs : |wrapToPi p x| ≤ p := abs_le.2 ⟨by linarith [hb.1], hb.2⟩
    have hdiff : x - 2*p*k = wrapToPi p x + 2*p*((k0:ℚ) - (k:ℚ)) := by
      rw [hw]; ring
    have hk1 : (1:ℚ) ≤ |(k0:ℚ) - (k:ℚ)| := by
      have h1 : (1:ℤ) ≤ |k0 - k| := Int.one_le_abs (sub_ne_zero.2 (Ne.symm hkk))
      calc (1:ℚ) = ((1:ℤ):ℚ) := by norm_num
        _ ≤ ((|k0 - k| : ℤ) : ℚ) := by exact_mod_cast h1
        _ = |(k0:ℚ) - (k:ℚ)| := by rw [Int.cast_abs]; push_cast; rfl
    have habs2 : |2*p*((k0:ℚ) - (k:ℚ))| = 2*p*|(k0:ℚ) - (k:ℚ)| := by
      rw [abs_mul, abs_of_pos (by linarith : (0:ℚ) < 2*p)]
    have h4 : |2*p*((k0:ℚ) - (k:ℚ))|
        ≤ |wrapToPi p x + 2*p*((k0:ℚ) - (k:ℚ))| + |wrapToPi p x| := by
      have h5 := abs_add (wrapToPi p x + 2*p*((k0:ℚ) - (k:ℚ))) (-(wrapToPi p x))
      simpa using h5
    rw [habs2] at h4
    have h2p1 : 2*p ≤ 2*p*|(k0:ℚ) - (k:ℚ)| := by nlinarith
    rw [hdiff]
    linarith

theorem discretise_wrap_ne (p a delta : ℚ) (hp : 1/5 ≤ p)
    (hd : delta = longRangeJointDiff ∨ delta = -longRangeJointDiff) :
    discretise (wrapToPi p (a + delta)) ≠ discretise a := by
  set k : ℤ := ⌈(a + delta) / (2*p) - 1/2⌉ with hk
  have hw : wrapToPi p (a + delta) = a + (delta - 2*p*(k:ℚ)) := by
    unfold wrapToPi; rw [← hk]; ring
  have hdge : -(1/10) ≤ delta := by
    rcases hd with h | h <;> rw [h] <;> norm_num [longRangeJointDiff]
  have hdle : delta ≤ 1/10 := by
    rcases hd with h | h <;> rw [h] <;> norm_num [longRangeJointDiff]
  rcases lt_trichotomy k 0 with hkneg | hkzero | hkpos
  · have hk1 : (k:ℚ) ≤ -1 := by
      have hki : k ≤ -1 := by omega
      exact_mod_cast hki
    have hpk : 2*p ≤ 2*p*(-(k:ℚ)) := by
      nlinarith [mul_nonneg (show (0:ℚ) ≤ 2*p by linarith)
        (show (0:ℚ) ≤ -(k:ℚ) - 1 by linarith)]
    have h3 : longRangeJointDiff * ((3:ℤ):ℚ) ≤ delta - 2*p*(k:ℚ) := by
      norm_num [longRangeJointDiff]
      linarith
    have hge := discretise_shift_ge a (delta - 2*p*(k:ℚ)) 3 h3
    rw [← hw] at hge
    omega
  · have hw0 : wrapToPi p (a + delta) = a + delta := by
      rw [hw, hkzero]; push_cast; ring
    rcases hd with h | h
    · rw [hw0, h, discretise_add_delta]; omega
    · rw [hw0, h, show a + -longRangeJointDiff = a - longRangeJointDiff by ring,
        discretise_sub_delta]
      omega
  · have hk1 : (1:ℚ) ≤ (k:ℚ) := by exact_mod_cast hkpos
    have hpk : 2*p ≤ 2*p*(k:ℚ) := by
      nlinarith [mul_nonneg (show (0:ℚ) ≤ 2*p by linarith)
        (show (0:ℚ) ≤ (k:ℚ) - 1 by linarith)]
    have h3 : delta - 2*p*(k:ℚ) ≤ -(longRangeJointDiff * ((3:ℤ):ℚ)) := by
      norm_num [longRangeJointDiff]
      linarith
    have hle := discretise_shift_le a (delta - 2*p*(k:ℚ)) 3 h3
    rw [← hw] at hle
    omega

theorem convert_set_ne (angles : List ℚ) (j : ℕ) (w a : ℚ)
    (ha : angles[j]? = some a) (hne : discretise w ≠ discretise a) :
    convertJointAnglesToCoord (angles.set j w) ≠ convertJointAnglesToCoord angles := by
  have hj : j < angles.length := by
    by_contra hcon
    rw [List.getElem?_eq_none (le_of_not_lt hcon)] at ha
    cases ha
  intro heq
  unfold convertJointAnglesToCoord at heq
  rw [List.map_set] at heq
  have h1 := congrArg (fun l => l[j]?) heq
  have hmlen : j < (List.map discretise angles).length := by simpa using hj
  simp only at h1
  rw [List.getElem?_set_self hmlen, List.getElem?_map, ha] at h1
  simp at h1
  exact hne h1

theorem generateSuccessorState_coord_ne (piQ : ℚ) (jm : JointModel)
    (hp : 1/5 ≤ piQ) (angles succ : List ℚ) (j : ℕ) (delta : ℚ)
    (hd : delta = longRangeJointDiff ∨ delta = -longRangeJointDiff)
    (hgen : generateSuccessorState piQ jm angles j delta = some succ) :
    convertJointAnglesToCoord succ ≠ convertJointAnglesToCoord angles := by
  unfold generateSuccessorState at hgen
  cases ha : angles[j]? with
  | none => rw [ha] at hgen; cases hgen
  | some a =>
    rw [ha] at hgen
    cases jm with
    | continuous =>
      dsimp only at hgen
      have hsucc : succ = angles.set j (wrapToPi piQ (a + delta)) :=
        (Option.some.inj hgen).symm
      rw [hsucc]
      exact convert_set_ne angles j _ a ha (discretise_wrap_ne piQ a delta hp hd)
    | bounded lo hi =>
      dsimp only at hgen
      split at hgen
      · cases hgen
      · have hsucc : succ = angles.set j (a + delta) :=
          (Option.some.inj hgen).symm
        rw [hsucc]
        refine convert_set_ne angles j _ a ha ?_
        rcases hd with h | h
        · rw [h, discretise_add_delta]; omega
        · rw [h, show a + -longRangeJointDiff = a - longRangeJointDiff by ring,
            discretise_sub_delta]
          omega

theorem add_length (d : PlanningData) (c : List ℤ) (a : List ℚ)
    (x : ℤ × ℤ × ℤ) (n : ℕ) :
    (addHashEntry d c a x n).2.table.length = d.table.length + 1 := by
  simp [addHashEntry]

theorem add_getD_lt (d : PlanningData) (c : List ℤ) (a : List ℚ)
    (x : ℤ × ℤ × ℤ) (n i : ℕ) (hi : i < d.table.length) :
    (addHashEntry d c a x n).2.table.getD i dummyEntry =
      d.table.getD i dummyEntry := by
  simp only [addHashEntry]
  exact List.getD_append _ _ _ _ hi

theorem add_getD_last (d : PlanningData) (c : List ℤ) (a : List ℚ)
    (x : ℤ × ℤ × ℤ) (n : ℕ) :
    (addHashEntry d c a x n).2.table.getD d.table.length dummyEntry =
      (addHashEntry d c a x n).1 := by
  simp only [addHashEntry]
  rw [List.getD_append_right _ _ _ _ (le_refl _), Nat.sub_self,
    List.getD_cons_zero]

theorem idsAligned_add (d : PlanningData) (c : List ℤ) (a : List ℚ)
    (x : ℤ × ℤ × ℤ) (n : ℕ) (h : idsAligned d) :
    idsAligned (addHashEntry d c a x n).2 := by
  intro i hi
  rw [add_length] at hi
  rcases Nat.lt_succ_iff_lt_or_eq.mp hi with hlt | heq
  · rw [add_getD_lt _ _ _ _ _ _ hlt]
    exact h i hlt
  · subst heq
    rw [add_getD_last]
    rfl

theorem coordsCoherent_add (d : PlanningData) (a : List ℚ)
    (x : ℤ × ℤ × ℤ) (n : ℕ) (h : coordsCoherent d) :
    coordsCoherent (addHashEntry d (convertJointAnglesToCoord a) a x n).2 := by
  intro i hi
  rw [add_length] at hi
  rcases Nat.lt_succ_iff_lt_or_eq.mp hi with hlt | heq
  · rw [add_getD_lt _ _ _ _ _ _ hlt]
    exact h i hlt
  · subst heq
    rw [add_getD_last]
    rfl

theorem possibleActions_delta (env : EnvConfig) :
    ∀ ad ∈ possibleActions env,
      ad.2 = longRangeJointDiff ∨ ad.2 = -longRangeJointDiff := by
  intro ad had
  unfold possibleActions at had
  simp only [List.mem_flatMap, List.mem_range, List.mem_cons,
    List.not_mem_nil, or_false] at had
  obtain ⟨i, -, h | h⟩ := had
  · rw [h]
    exact Or.inl rfl
  · rw [h]
    exact Or.inr rfl

theorem getHashEntry_some_props (d : PlanningData) (c : List ℤ)
    (e : EnvChain3DHashEntry) (h : getHashEntry d c = some e) :
    e ∈ d.table ∧ e.coord = c := by
  refine ⟨List.mem_of_find?_eq_some h, ?_⟩
  have := List.find?_some h
  simpa using this

theorem getSuccsLoop_not_self (env : EnvConfig) (hp : 1/5 ≤ env.piQ)
    (gA : List ℚ) (g src : ℕ) (srcEntry : EnvChain3DHashEntry)
    (hsg : src ≠ g) :
    ∀ (acts : List (ℕ × ℚ)),
      (∀ ad ∈ acts, ad.2 = longRangeJointDiff ∨ ad.2 = -longRangeJointDiff) →
      ∀ i d, idsAligned d → coordsCoherent d →
        src < d.table.length →
        d.table.getD src dummyEntry = srcEntry →
        ∀ sid c, (sid, c) ∈ (getSuccsLoop env gA srcEntry.angles g acts i d).1 →
          sid ≠ src := by
  intro acts
  induction acts with
  | nil =>
    intro _ i d _ _ _ _ sid c hmem
    simp [getSuccsLoop] at hmem
  | cons act rest ih =>
    obtain ⟨j, delta⟩ := act
    intro hdeltas i d hids hcoh hsrc hgetD sid c hmem
    have hdrest : ∀ ad ∈ rest, ad.2 = longRangeJointDiff ∨ ad.2 = -longRangeJointDiff :=
      fun ad had => hdeltas ad (List.mem_cons_of_mem _ had)
    have hdhead : delta = longRangeJointDiff ∨ delta = -longRangeJointDiff :=
      hdeltas (j, delta) (List.mem_cons_self _ _)
    unfold getSuccsLoop at hmem
    cases hjm : env.joints[j]? with
    | none =>
      rw [hjm] at hmem
      exact ih hdrest (i+1) d hids hcoh hsrc hgetD sid c hmem
    | some jm =>
      rw [hjm] at hmem
      dsimp only at hmem
      cases hgen : generateSuccessorState env.piQ jm srcEntry.angles j delta with
      | none =>
        rw [hgen] at hmem
        exact ih hdrest (i+1) d hids hcoh hsrc hgetD sid c hmem
      | some succAngles =>
        rw [hgen] at hmem
        dsimp only at hmem
        by_cases hcol : env.collides succAngles = true
        · rw [if_pos hcol] at hmem
          exact ih hdrest (i+1) d hids hcoh hsrc hgetD sid c hmem
        · rw [if_neg hcol] at hmem
          cases hxyz : env.gridXYZ succAngles with
          | none =>
            rw [hxyz] at hmem
            exact ih hdrest (i+1) d hids hcoh hsrc hgetD sid c hmem
          | some xyz =>
            rw [hxyz] at hmem
            dsimp only at hmem
            have hcoordne : convertJointAnglesToCoord succAngles ≠
                convertJointAnglesToCoord srcEntry.angles :=
              generateSuccessorState_coord_ne env.piQ jm hp srcEntry.angles
                succAngles j delta hdhead hgen
            by_cases hmax : getJointDistanceIntegerMax env succAngles gA = 1
            · rw [if_pos hmax] at hmem
              dsimp only at hmem
              rcases List.mem_cons.mp hmem with hhd | htl
              · have : sid = g := (Prod.mk.injEq _ _ _ _).mp hhd |>.1
                rw [this]
                exact fun hgs => hsg hgs.symm
              · exact ih hdrest (i+1) d hids hcoh hsrc hgetD sid c htl
            · rw [if_neg hmax] at hmem
              cases hfind : getHashEntry d (convertJointAnglesToCoord succAngles) with
              | some e =>
                rw [hfind] at hmem
                dsimp only at hmem
                rcases List.mem_cons.mp hmem with hhd | htl
                · have hside : sid = e.stateID := (Prod.mk.injEq _ _ _ _).mp hhd |>.1
                  rw [hside]
                  intro heid
                  obtain ⟨hemem, hecoord⟩ := getHashEntry_some_props d _ e hfind
                  obtain ⟨k, hk, hgetk⟩ := List.mem_iff_getElem.mp hemem
                  have hgetDk : d.table.getD k dummyEntry = e := by
                    rw [List.getD_eq_getElem d.table dummyEntry hk]
                    exact hgetk
                  have hkid : e.stateID = k := by
                    have := hids k hk
                    rw [hgetDk] at this
                    exact this
                  have hksrc : k = src := by rw [← hkid, heid]
                  have hesrc : e = srcEntry := by
                    rw [← hgetD, ← hksrc, hgetDk]
                  have hscoh := hcoh src hsrc
                  rw [hgetD] at hscoh
                  apply hcoordne
                  rw [← hecoord, hesrc, hscoh]
                · exact ih hdrest (i+1) d hids hcoh hsrc hgetD sid c htl
              | none =>
                rw [hfind] at hmem
                dsimp only at hmem
                rcases List.mem_cons.mp hmem with hhd | htl
                · have hside : sid = d.table.length :=
                    (Prod.mk.injEq _ _ _ _).mp hhd |>.1
                  omega
                · refine ih hdrest (i+1) _
                    (idsAligned_add d _ succAngles xyz i hids)
                    (coordsCoherent_add d succAngles xyz i hcoh)
                    ?_ ?_ sid c htl
                  · rw [add_length]
                    omega
                  · rw [add_getD_lt _ _ _ _ _ _ hsrc]
                    exact hgetD

/-- C7 counterexample: with one joint bounded to [0, 1/20] both action
primitives are rejected, so the non-goal start state (ID 0) has an empty
successor list even though it is not the goal entry (ID 1): emptiness does
not imply the goal. -/
theorem c7_empty_nongoal_counterexample :
    (getSuccs
        { joints := [.bounded 0 (1/20)], piQ := 4,
          collides := fun _ => false, gridXYZ := fun _ => some (1, 1, 1) }
        { table := [ { stateID := 0, coord := [0], angles := [0],
                       xyz := (1, 1, 1), action := 0 },
                     { stateID := 1, coord := [0], angles := [3/100],
                       xyz := (1, 1, 1), action := 0 } ],
          startID := some 0, goalID := some 1 } 0).1 = [] ∧
    (0 : ℕ) ≠ 1 := by
  refine ⟨?_, by decide⟩
  with_unfolding_all decide

/-- C7 amended: on a well-formed table (IDs aligned with positions, coords
the discretisations of the stored angles) successor generation never returns
the source state itself, and the goal state is absorbing (empty successor
list); the converse direction of the claim fails — a non-goal state can also
have an empty successor list. -/
theorem c7_amended_no_self_successor (env : EnvConfig) (d : PlanningData)
    (hp : 1/5 ≤ env.piQ) (hids : idsAligned d) (hcoh : coordsCoherent d) :
    (∀ (src sid : ℕ) (c : ℤ), (sid, c) ∈ (getSuccs env d src).1 → sid ≠ src) ∧
    (∀ g, d.goalID = some g → getSuccs env d g = ([], d)) := by
  constructor
  · intro src sid c hmem
    unfold getSuccs at hmem
    cases hg : d.goalID with
    | none =>
      rw [hg] at hmem
      simp at hmem
    | some g =>
      rw [hg] at hmem
      dsimp only at hmem
      by_cases hsg : src = g
      · rw [if_pos hsg] at hmem
        simp at hmem
      · rw [if_neg hsg] at hmem
        by_cases hlen : d.table.length ≤ src
        · rw [if_pos hlen] at hmem
          simp at hmem
        · rw [if_neg hlen] at hmem
          cases hsrcE : d.table[src]? with
          | none =>
            rw [hsrcE] at hmem
            simp at hmem
          | some hashEntry =>
            rw [hsrcE] at hmem
            dsimp only at hmem
            cases hgE : d.table[g]? with
            | none =>
              rw [hgE] at hmem
              simp at hmem
            | some goalEntry =>
              rw [hgE] at hmem
              dsimp only at hmem
              refine getSuccsLoop_not_self env hp goalEntry.angles g src
                hashEntry hsg (possibleActions env)
                (possibleActions_delta env) 0 d hids hcoh
                (not_le.mp hlen) ?_ sid c hmem
              rw [List.getD_eq_getElem?_getD, hsrcE]
              rfl
  · intro g hg
    unfold getSuccs
    rw [hg]
    dsimp only
    rw [if_pos rfl]

/-- C7 witness: the amended statement at the concrete one-joint environment
and a concrete well-formed two-entry table. -/
theorem c7_amended_no_self_successor_witness :
    (∀ (src sid : ℕ) (c : ℤ),
      (sid, c) ∈ (getSuccs exampleEnv
        { table := [ { stateID := 0, coord := [0], angles := [0],
                       xyz := (1, 1, 1), action := 0 },
                     { stateID := 1, coord := [3], angles := [3/10],
                       xyz := (1, 1, 1), action := 0 } ],
          startID := some 0, goalID := some 1 } src).1 → sid ≠ src) ∧
    (∀ g,
      ({ table := [ { stateID := 0, coord := [0], angles := [0],
                      xyz := (1, 1, 1), action := 0 },
                    { stateID := 1, coord := [3], angles := [3/10],
                      xyz := (1, 1, 1), action := 0 } ],
         startID := some 0, goalID := some 1 } : PlanningData).goalID = some g →
      getSuccs exampleEnv
        { table := [ { stateID := 0, coord := [0], angles := [0],
                       xyz := (1, 1, 1), action := 0 },
                     { stateID := 1, coord := [3], angles := [3/10],
                       xyz := (1, 1, 1), action := 0 } ],
          startID := some 0, goalID := some 1 } g =
        ([], { table := [ { stateID := 0, coord := [0], angles := [0],
                            xyz := (1, 1, 1), action := 0 },
                          { stateID := 1, coord := [3], angles := [3/10],
                            xyz := (1, 1, 1), action := 0 } ],
               startID := some 0, goalID := some 1 })) :=
  c7_amended_no_self_successor exampleEnv _
    (by norm_num [exampleEnv]) (by with_unfolding_all decide)
    (by with_unfolding_all decide)


/-- C2 counterexample: a setup that fails with GOAL_IN_COLLISION leaves one
entry (the start entry) in the state table, so `SizeofCreatedEnv` returns 1,
not 0. -/
theorem c2_goal_collision_counterexample :
    (setupForMotionPlan exampleGoalCollisionInput).1 = .goalInCollision ∧
    sizeofCreatedEnv (setupForMotionPlan exampleGoalCollisionInput).2 = 1 := by
  with_unfolding_all decide

/-- C2 amended: a setup failure reported before the start entry is inserted
(collision checking unavailable, start in collision, field size mismatch,
invalid robot state) leaves the environment with zero entries, but a failure
at the goal checks (GOAL_IN_COLLISION, INVALID_GOAL_CONSTRAINTS) leaves
exactly one entry — the already-inserted start entry. -/
theorem c2_amended_failure_entry_counts (inp : SetupInput) :
    (((setupForMotionPlan inp).1 = .collisionCheckingUnavailable ∨
      (setupForMotionPlan inp).1 = .startStateInCollision ∨
      (setupForMotionPlan inp).1 = .invalidRobotState) →
      sizeofCreatedEnv (setupForMotionPlan inp).2 = 0) ∧
    (((setupForMotionPlan inp).1 = .goalInCollision ∨
      (setupForMotionPlan inp).1 = .invalidGoalConstraints) →
      sizeofCreatedEnv (setupForMotionPlan inp).2 = 1) := by
  unfold setupForMotionPlan
  repeat' split
  all_goals simp_all [sizeofCreatedEnv, addHashEntry, PlanningData.empty]

/-- C2 witness: the amended count at the concrete goal-collision input. -/
theorem c2_amended_failure_entry_counts_witness :
    sizeofCreatedEnv (setupForMotionPlan exampleGoalCollisionInput).2 = 1 :=
  (c2_amended_failure_entry_counts exampleGoalCollisionInput).2
    (Or.inl (by with_unfolding_all decide))

/-- C1 counterexample: a successful setup whose start and goal joint values
discretise to the same coordinate produces two distinct state IDs (0 and 1)
with equal coords, and the goal entry is distinct from the start entry. -/
theorem c1_shared_coord_counterexample :
    (setupForMotionPlan exampleCoincidentInput).1 = .success ∧
    (setupForMotionPlan exampleCoincidentInput).2.startID = some 0 ∧
    (setupForMotionPlan exampleCoincidentInput).2.goalID = some 1 ∧
    ((setupForMotionPlan exampleCoincidentInput).2.table.getD 0 dummyEntry).coord =
      ((setupForMotionPlan exampleCoincidentInput).2.table.getD 1 dummyEntry).coord := by
  with_unfolding_all decide

/-- C1 amended: a successful setup always creates the start entry with
stateID 0 and then a fresh goal entry with stateID 1 (so the goal entry is
never the start entry, even when both discretise to the same coordinate);
distinct state IDs map to distinct coordinates EXCEPT that the goal entry may
duplicate the coord of an earlier entry, and successor generation preserves
this amended uniqueness invariant (new entries are only added when their
coord misses the table). -/
theorem c1_amended_fresh_goal_entry :
    (∀ (inp : SetupInput) (d : PlanningData),
      setupForMotionPlan inp = (.success, d) →
      d.startID = some 0 ∧ d.goalID = some 1 ∧ d.table.length = 2 ∧
      (d.table.getD 0 dummyEntry).coord = convertJointAnglesToCoord inp.startAngles ∧
      (d.table.getD 1 dummyEntry).coord = convertJointAnglesToCoord inp.goalAngles ∧
      coordsDistinctExceptGoal d) ∧
    (∀ (env : EnvConfig) (d : PlanningData) (sid : ℕ),
      coordsDistinctExceptGoal d →
      coordsDistinctExceptGoal (getSuccs env d sid).2 ∧
      (getSuccs env d sid).2.goalID = d.goalID) := by
  constructor
  · intro inp d heq
    unfold setupForMotionPlan at heq
    repeat' split at heq
    all_goals cases heq
    all_goals try simp_all [addHashEntry, PlanningData.empty]
    intro i hi j hj hij _
    have hj2 : j < 2 := by simpa using hj
    have : j = 1 := by omega
    subst this
    rfl
  · intro env d sid h
    unfold getSuccs
    cases hg : d.goalID with
    | none => exact ⟨h, hg⟩
    | some g =>
      dsimp only
      split
      · exact ⟨h, hg⟩
      · split
        · exact ⟨h, hg⟩
        · cases he : d.table[sid]? with
          | none => exact ⟨h, hg⟩
          | some hashEntry =>
            dsimp only
            cases hge : d.table[g]? with
            | none => exact ⟨h, hg⟩
            | some goalEntry =>
              dsimp only
              have := getSuccsLoop_coordsDistinct env goalEntry.angles
                hashEntry.angles g (possibleActions env) 0 d h
              exact ⟨this.1, this.2.trans hg⟩

/-- C1 witness: the amended statement applied to the concrete coincident
setup input and to a successor expansion from the empty table. -/
theorem c1_amended_fresh_goal_entry_witness :
    ((setupForMotionPlan exampleCoincidentInput).2.startID = some 0 ∧
      (setupForMotionPlan exampleCoincidentInput).2.goalID = some 1) ∧
    coordsDistinctExceptGoal (getSuccs exampleEnv PlanningData.empty 0).2 :=
  ⟨⟨((c1_amended_fresh_goal_entry.1 exampleCoincidentInput
        (setupForMotionPlan exampleCoincidentInput).2
        (by with_unfolding_all decide))).1,
    ((c1_amended_fresh_goal_entry.1 exampleCoincidentInput
        (setupForMotionPlan exampleCoincidentInput).2
        (by with_unfolding_all decide))).2.1⟩,
   (c1_amended_fresh_goal_entry.2 exampleEnv PlanningData.empty 0
      (by with_unfolding_all decide)).1⟩


theorem ceil_div_le_succ (u v : ℚ) (h : u ≤ v + longRangeJointDiff) :
    ⌈u / longRangeJointDiff⌉ ≤ ⌈v / longRangeJointDiff⌉ + 1 := by
  have hδ := longRangeJointDiff_pos
  have h1 : u / longRangeJointDiff ≤ v / longRangeJointDiff + ((1:ℤ):ℚ) := by
    rw [show v / longRangeJointDiff + ((1:ℤ):ℚ)
        = (v + longRangeJointDiff) / longRangeJointDiff by
      rw [add_div, div_self (ne_of_gt hδ)]; norm_num]
    exact (div_le_div_iff_of_pos_right hδ).2 h
  calc ⌈u / longRangeJointDiff⌉ ≤ ⌈v / longRangeJointDiff + ((1:ℤ):ℚ)⌉ :=
        Int.ceil_le_ceil h1
    _ = ⌈v / longRangeJointDiff⌉ + 1 := Int.ceil_add_int _ _

theorem integerDistance_nonneg (p : ℚ) (jm : JointModel) (a b : ℚ) :
    0 ≤ integerDistance p jm a b := by
  unfold integerDistance
  cases jm <;>
    exact Int.ceil_nonneg (div_nonneg (abs_nonneg _)
      (le_of_lt longRangeJointDiff_pos))

theorem wrapToPi_zero (p : ℚ) : wrapToPi p 0 = 0 := by
  unfold wrapToPi
  rw [zero_div]
  norm_num

theorem integerDistance_self (p : ℚ) (jm : JointModel) (a : ℚ) :
    integerDistance p jm a a = 0 := by
  unfold integerDistance
  cases jm <;> dsimp only
  · rw [sub_self]
    norm_num
  · rw [sub_self, wrapToPi_zero]
    norm_num

theorem integerDistance_lip_bounded (p : ℚ) (lo hi a g delta : ℚ)
    (hdel : |delta| ≤ longRangeJointDiff) :
    integerDistance p (.bounded lo hi) a g ≤
      1 + integerDistance p (.bounded lo hi) (a + delta) g := by
  unfold integerDistance
  dsimp only
  have habs : |g - a| ≤ |g - (a + delta)| + longRangeJointDiff := by
    have h1 : g - a = (g - (a + delta)) + delta := by ring
    calc |g - a| = |(g - (a + delta)) + delta| := by rw [← h1]
      _ ≤ |g - (a + delta)| + |delta| := abs_add _ _
      _ ≤ |g - (a + delta)| + longRangeJointDiff := by linarith
  have := ceil_div_le_succ _ _ habs
  omega

theorem integerDistance_lip_continuous (p : ℚ) (hp0 : 0 < p) (a g delta : ℚ)
    (hdel : |delta| ≤ longRangeJointDiff) :
    integerDistance p .continuous a g ≤
      1 + integerDistance p .continuous (wrapToPi p (a + delta)) g := by
  unfold integerDistance
  dsimp only
  set w : ℚ := wrapToPi p (a + delta) with hwdef
  set k : ℤ := ⌈(a + delta) / (2*p) - 1/2⌉ with hk
  have hw : w = a + delta - 2*p*(k:ℚ) := by
    rw [hwdef]; unfold wrapToPi; rw [← hk]
  set k2 : ℤ := ⌈(g - w) / (2*p) - 1/2⌉ with hk2
  have hw2 : wrapToPi p (g - w) = (g - w) - 2*p*(k2:ℚ) := by
    unfold wrapToPi; rw [← hk2]
  have habs : |wrapToPi p (g - a)| ≤ |wrapToPi p (g - w)| + longRangeJointDiff := by
    have h1 := abs_wrapToPi_le_abs_sub p hp0 (g - a) (k2 - k)
    have h2 : (g - a) - 2*p*((k2 - k : ℤ):ℚ) = wrapToPi p (g - w) + delta := by
      rw [hw2, hw]
      push_cast
      ring
    rw [h2] at h1
    calc |wrapToPi p (g - a)| ≤ |wrapToPi p (g - w) + delta| := h1
      _ ≤ |wrapToPi p (g - w)| + |delta| := abs_add _ _
      _ ≤ |wrapToPi p (g - w)| + longRangeJointDiff := by linarith
  have := ceil_div_le_succ _ _ habs
  omega

theorem jointSum_eq_range (env : EnvConfig) (as bs : List ℚ) :
    ((env.joints.zip (as.zip bs)).map
        (fun x => integerDistance env.piQ x.1 x.2.1 x.2.2)).sum =
      ((List.range (min env.joints.length (min as.length bs.length))).map
        (fun i => integerDistance env.piQ (env.joints.getD i .continuous)
          (as.getD i 0) (bs.getD i 0))).sum := by
  congr 1
  apply List.ext_getElem
  · simp
  · intro n h1 h2
    simp only [List.getElem_map, List.getElem_zip, List.getElem_range]
    have hb : n < min env.joints.length (min as.length bs.length) := by
      simpa using h1
    have hbj : n < env.joints.length := lt_of_lt_of_le hb (min_le_left _ _)
    have hba : n < as.length :=
      lt_of_lt_of_le hb ((min_le_right _ _).trans (min_le_left _ _))
    have hbb : n < bs.length :=
      lt_of_lt_of_le hb ((min_le_right _ _).trans (min_le_right _ _))
    rw [List.getD_eq_getElem env.joints .continuous hbj,
      List.getD_eq_getElem as 0 hba, List.getD_eq_getElem bs 0 hbb]

theorem sum_range_map_le (g1 g2 : ℕ → ℤ) (j : ℕ) :
    ∀ (n : ℕ), j < n →
      (∀ i, i < n → i ≠ j → g1 i = g2 i) → g1 j ≤ 1 + g2 j →
      ((List.range n).map g1).sum ≤ 1 + ((List.range n).map g2).sum := by
  intro n
  induction n with
  | zero => omega
  | succ m ih =>
    intro hj hagree hjle
    rw [List.range_succ]
    simp only [List.map_append, List.sum_append, List.map_cons, List.sum_cons,
      List.map_nil, List.sum_nil]
    by_cases hjm : j = m
    · subst hjm
      have hmaps : (List.range j).map g1 = (List.range j).map g2 :=
        List.map_congr_left (fun i hi =>
          hagree i (by simpa using Nat.lt_succ_of_lt (List.mem_range.mp hi))
            (by have := List.mem_range.mp hi; omega))
      rw [hmaps]
      omega
    · have hjlt : j < m := by omega
      have hrec := ih hjlt
        (fun i hi hne => hagree i (by omega) hne) hjle
      have hgm : g1 m = g2 m := hagree m (by omega) (by omega)
      omega

theorem getJointDistanceIntegerSum_lipschitz (env : EnvConfig)
    (hp : 1/5 ≤ env.piQ) (jm : JointModel) (j : ℕ) (delta : ℚ)
    (src succ goal : List ℚ)
    (hjm : env.joints[j]? = some jm)
    (hd : delta = longRangeJointDiff ∨ delta = -longRangeJointDiff)
    (hgen : generateSuccessorState env.piQ jm src j delta = some succ)
    (hlen : src.length = goal.length) :
    getJointDistanceIntegerSum env src goal ≤
      1 + getJointDistanceIntegerSum env succ goal := by
  have hp0 : (0:ℚ) < env.piQ := by linarith
  have hdel : |delta| ≤ longRangeJointDiff := by
    rcases hd with h | h <;> rw [h] <;> norm_num [longRangeJointDiff, abs_le]
  unfold generateSuccessorState at hgen
  cases ha : src[j]? with
  | none => rw [ha] at hgen; cases hgen
  | some a =>
    rw [ha] at hgen
    have hja : j < src.length := by
      by_contra hcon
      rw [List.getElem?_eq_none (le_of_not_lt hcon)] at ha
      cases ha
    have hjj : j < env.joints.length := by
      by_contra hcon
      rw [List.getElem?_eq_none (le_of_not_lt hcon)] at hjm
      cases hjm
    obtain ⟨w, hsucc, hlip⟩ :
        ∃ w, succ = src.set j w ∧
          ∀ gj : ℚ, integerDistance env.piQ jm a gj ≤
            1 + integerDistance env.piQ jm w gj := by
      cases jm with
      | bounded lo hi =>
        dsimp only at hgen
        split at hgen
        · cases hgen
        · exact ⟨_, (Option.some.inj hgen).symm,
            fun gj => integerDistance_lip_bounded env.piQ lo hi a gj delta hdel⟩
      | continuous =>
        dsimp only at hgen
        exact ⟨_, (Option.some.inj hgen).symm,
          fun gj => integerDistance_lip_continuous env.piQ hp0 a gj delta hdel⟩
    subst hsucc
    unfold getJointDistanceIntegerSum
    rw [if_neg (not_not_intro hlen),
      if_neg (not_not_intro (by rw [List.length_set]; exact hlen)),
      jointSum_eq_range, jointSum_eq_range, List.length_set]
    apply sum_range_map_le _ _ j _ ?_ ?_ ?_
    · exact lt_min hjj (lt_min hja (hlen ▸ hja))
    · intro i hi hne
      have hset : (src.set j w).getD i 0 = src.getD i 0 := by
        rw [List.getD_eq_getElem?_getD, List.getElem?_set_ne (Ne.symm hne),
          ← List.getD_eq_getElem?_getD]
      rw [hset]
    · have hgj : (env.joints.getD j .continuous) = jm := by
        rw [List.getD_eq_getElem?_getD, hjm]
        rfl
      have hsj : src.getD j 0 = a := by
        rw [List.getD_eq_getElem?_getD, ha]
        rfl
      have hwj : (src.set j w).getD j 0 = w := by
        rw [List.getD_eq_getElem?_getD, List.getElem?_set_self hja]
        rfl
      rw [hgj, hsj, hwj]
      exact hlip _

/-- C5 counterexample: consistency fails twice.  (i) Goal absorption: from the
state with angles (0.1, 0.08) the −δ primitive on joint 0 yields a candidate
with max integer distance 1, which is returned as the goal entry (ID 1, cost
1000), yet h(x, goal) = 2000 > 1000 + h(goal, goal).  (ii) Hash aliasing:
from angles (0.41) the −δ candidate (0.31) hits the stored entry with angles
(0.30) (same coord bucket 3), yet h(x, goal) = 5000 > 1000 + h(entry, goal)
= 4000. -/
theorem c5_consistency_counterexample :
    ((1, (1000:ℤ)) ∈ (getSuccs exampleAbsorbEnv exampleAbsorbData 0).1 ∧
      getEndEffectorHeuristic exampleAbsorbEnv
        (exampleAbsorbData.table.getD 0 dummyEntry)
        (exampleAbsorbData.table.getD 1 dummyEntry) = 2000 ∧
      getEndEffectorHeuristic exampleAbsorbEnv
        (exampleAbsorbData.table.getD 1 dummyEntry)
        (exampleAbsorbData.table.getD 1 dummyEntry) = 0 ∧
      ¬((2000:ℤ) ≤ 1000 + 0)) ∧
    ((1, (1000:ℤ)) ∈ (getSuccs exampleAliasEnv exampleAliasData 0).1 ∧
      getEndEffectorHeuristic exampleAliasEnv
        (exampleAliasData.table.getD 0 dummyEntry)
        (exampleAliasData.table.getD 2 dummyEntry) = 5000 ∧
      getEndEffectorHeuristic exampleAliasEnv
        (exampleAliasData.table.getD 1 dummyEntry)
        (exampleAliasData.table.getD 2 dummyEntry) = 3000 ∧
      ¬((5000:ℤ) ≤ 1000 + 3000)) := by
  with_unfolding_all decide

/-- C5 amended: the heuristic equals JOINT_DIST_MULT times the per-joint
integer-distance sum; h(x,x) = 0; h(x,y) ≥ 0; and the per-candidate
Lipschitz consistency bound holds: the scaled distance sum of a state to the
goal exceeds that of any candidate generated from it by at most EDGE_COST.
(Per-returned-ID consistency fails at absorption and aliasing edges — see
the counterexample.) -/
theorem c5_amended_heuristic_properties :
    (∀ (env : EnvConfig) (e1 e2 : EnvChain3DHashEntry),
      e1.angles.length = e2.angles.length →
      getEndEffectorHeuristic env e1 e2 =
        ((List.range (min env.joints.length
            (min e1.angles.length e2.angles.length))).map
          (fun i => integerDistance env.piQ (env.joints.getD i .continuous)
            (e1.angles.getD i 0) (e2.angles.getD i 0))).sum * jointDistMult) ∧
    (∀ (env : EnvConfig) (e : EnvChain3DHashEntry),
      getEndEffectorHeuristic env e e = 0) ∧
    (∀ (env : EnvConfig) (e1 e2 : EnvChain3DHashEntry),
      0 ≤ getEndEffectorHeuristic env e1 e2) ∧
    (∀ (env : EnvConfig) (jm : JointModel) (j : ℕ) (delta : ℚ)
        (src succ goal : List ℚ),
      1/5 ≤ env.piQ →
      env.joints[j]? = some jm →
      (delta = longRangeJointDiff ∨ delta = -longRangeJointDiff) →
      generateSuccessorState env.piQ jm src j delta = some succ →
      src.length = goal.length →
      getJointDistanceIntegerSum env src goal * jointDistMult ≤
        calculateCost + getJointDistanceIntegerSum env succ goal * jointDistMult) := by
  refine ⟨?_, ?_, ?_, ?_⟩
  · intro env e1 e2 hlen
    unfold getEndEffectorHeuristic getJointDistanceIntegerSum
    rw [if_neg (not_not_intro hlen), jointSum_eq_range]
  · intro env e
    unfold getEndEffectorHeuristic getJointDistanceIntegerSum
    rw [if_neg (not_not_intro rfl), jointSum_eq_range]
    have hz : ∀ x ∈ (List.range (min env.joints.length
        (min e.angles.length e.angles.length))).map
          (fun i => integerDistance env.piQ (env.joints.getD i .continuous)
            (e.angles.getD i 0) (e.angles.getD i 0)), x = 0 := by
      intro x hx
      simp only [List.mem_map, List.mem_range] at hx
      obtain ⟨i, -, hxe⟩ := hx
      rw [← hxe]
      exact integerDistance_self _ _ _
    rw [List.sum_eq_zero hz]
    norm_num
  · intro env e1 e2
    unfold getEndEffectorHeuristic getJointDistanceIntegerSum
    split
    · norm_num [intMax, jointDistMult]
    · apply mul_nonneg ?_ (by norm_num [jointDistMult])
      apply List.sum_nonneg
      intro x hx
      simp only [List.mem_map] at hx
      obtain ⟨y, -, hxe⟩ := hx
      rw [← hxe]
      exact integerDistance_nonneg _ _ _ _
  · intro env jm j delta src succ goal hp hjm hd hgen hlen
    have h := getJointDistanceIntegerSum_lipschitz env hp jm j delta
      src succ goal hjm hd hgen hlen
    have h2 := mul_le_mul_of_nonneg_right h (show (0:ℤ) ≤ 1000 by norm_num)
    unfold calculateCost jointDistMult
    nlinarith

/-- C5 witness: the amended properties at concrete inputs — the zero and
nonnegativity parts at the dummy entry, the formula at equal-length entries,
and the Lipschitz bound for the +δ candidate from angle 0 towards goal 0.3
on the one-joint environment. -/
theorem c5_amended_heuristic_properties_witness :
    getEndEffectorHeuristic exampleEnv dummyEntry dummyEntry =
      ((List.range (min exampleEnv.joints.length
          (min dummyEntry.angles.length dummyEntry.angles.length))).map
        (fun i => integerDistance exampleEnv.piQ
          (exampleEnv.joints.getD i .continuous)
          (dummyEntry.angles.getD i 0) (dummyEntry.angles.getD i 0))).sum
        * jointDistMult ∧
    getEndEffectorHeuristic exampleEnv dummyEntry dummyEntry = 0 ∧
    (0:ℤ) ≤ getEndEffectorHeuristic exampleEnv dummyEntry dummyEntry ∧
    getJointDistanceIntegerSum exampleEnv [0] [3/10] * jointDistMult ≤
      calculateCost +
        getJointDistanceIntegerSum exampleEnv [0 + longRangeJointDiff] [3/10]
          * jointDistMult :=
  ⟨c5_amended_heuristic_properties.1 exampleEnv dummyEntry dummyEntry rfl,
   c5_amended_heuristic_properties.2.1 exampleEnv dummyEntry,
   c5_amended_heuristic_properties.2.2.1 exampleEnv dummyEntry dummyEntry,
   c5_amended_heuristic_properties.2.2.2 exampleEnv (.bounded (-1) 1) 0
     longRangeJointDiff [0] [0 + longRangeJointDiff] [3/10]
     (by norm_num [exampleEnv]) rfl (Or.inl rfl)
     (by with_unfolding_all decide) rfl⟩

end SbplInterface


namespace TrajectoryExecution


theorem mapM_option_props {α β : Type} (f : α → Option β) :
    ∀ (l : List α), (∀ c ∈ l, (f c).isSome) →
      ∃ ys : List β, l.mapM f = some ys ∧ ys.length = l.length ∧
        ∀ (i : ℕ) (x : α), l[i]? = some x → ys[i]? = f x := by
  intro l
  induction l with
  | nil =>
    intro _
    refine ⟨[], rfl, rfl, ?_⟩
    intro i x hx
    simp at hx
  | cons a rest ih =>
    intro h
    obtain ⟨b, hb⟩ := Option.isSome_iff_exists.mp (h a (List.mem_cons_self a rest))
    obtain ⟨ys, hys, hlen, hget⟩ := ih (fun c hc => h c (List.mem_cons_of_mem a hc))
    refine ⟨b :: ys, ?_, by simp [hlen], ?_⟩
    · rw [List.mapM_cons, hb, hys]
      rfl
    · intro i x hx
      cases i with
      | zero =>
        simp at hx
        subst hx
        simp [hb]
      | succ n =>
        simp only [List.getElem?_cons_succ] at hx ⊢
        exact hget n x hx

theorem distributePart_props (reg : Registry) (traj : RobotTrajectory)
    (c : String) (ci : ControllerInformation)
    (hci : reg.find? (fun x => x.name = c) = some ci) :
    ∃ part, distributePart reg traj c = some part ∧
      ((ci.joints.filter (fun j => j ∈ traj.jointTrajectory.jointNames) ≠ [] →
          part.jointTrajectory.points.length = traj.jointTrajectory.points.length ∧
          ∀ (k : ℕ) p q, part.jointTrajectory.points[k]? = some p →
            traj.jointTrajectory.points[k]? = some q →
            p.timeFromStart = q.timeFromStart) ∧
       (ci.joints.filter (fun j => j ∈ traj.multiDofTrajectory.jointNames) ≠ [] →
          part.multiDofTrajectory.points.length = traj.multiDofTrajectory.points.length ∧
          ∀ (k : ℕ) p q, part.multiDofTrajectory.points[k]? = some p →
            traj.multiDofTrajectory.points[k]? = some q →
            p.timeFromStart = q.timeFromStart) ∧
       (ci.joints.filter (fun j => j ∈ traj.jointTrajectory.jointNames) = [] →
        ci.joints.filter (fun j => j ∈ traj.multiDofTrajectory.jointNames) = [] →
        part = RobotTrajectory.empty)) := by
  unfold distributePart
  rw [hci]
  dsimp only
  by_cases hm : ci.joints.filter (fun j => j ∈ traj.multiDofTrajectory.jointNames) = [] <;>
    by_cases hs : ci.joints.filter (fun j => j ∈ traj.jointTrajectory.jointNames) = []
  · rw [if_neg (not_not_intro hm), if_neg (not_not_intro hs)]
    exact ⟨_, rfl, fun hc => absurd hs hc, fun hc => absurd hm hc, fun _ _ => rfl⟩
  · rw [if_neg (not_not_intro hm), if_pos hs]
    refine ⟨_, rfl, ?_, fun hc => absurd hm hc, fun hcs _ => absurd hcs hs⟩
    intro _
    constructor
    · simp [splitJointPart]
    · intro k p q hp hq
      simp only [splitJointPart, List.getElem?_map, hq, Option.map_some] at hp
      simp at hp
      subst hp
      rfl
  · rw [if_pos hm, if_neg (not_not_intro hs)]
    refine ⟨_, rfl, fun hc => absurd hs hc, ?_, fun hcs hcm => absurd hcm hm⟩
    intro _
    constructor
    · simp [splitMultiDofPart]
    · intro k p q hp hq
      simp only [splitMultiDofPart, List.getElem?_map, hq, Option.map_some] at hp
      simp at hp
      subst hp
      rfl
  · rw [if_pos hm, if_pos hs]
    refine ⟨_, rfl, ?_, ?_, fun hcs _ => absurd hcs hs⟩
    · intro _
      constructor
      · simp [splitJointPart]
      · intro k p q hp hq
        simp only [splitJointPart, List.getElem?_map, hq, Option.map_some] at hp
        simp at hp
        subst hp
        rfl
    · intro _
      constructor
      · simp [splitMultiDofPart]
      · intro k p q hp hq
        simp only [splitMultiDofPart, List.getElem?_map, hq, Option.map_some] at hp
        simp at hp
        subst hp
        rfl

/-- C9: when every selected controller is known, the split succeeds with one
part per controller; a controller whose joint set meets the trajectory's
single-DOF (resp. multi-DOF) joint names gets a part with exactly one point
per input point and identical per-point `time_from_start`; a controller with
empty intersections gets the empty part. -/
theorem c9_split_preserves_timestamps (reg : Registry) (traj : RobotTrajectory)
    (controllers : List String)
    (hknown : ∀ c ∈ controllers, (reg.find? (fun x => x.name = c)).isSome) :
    ∃ parts, distributeTrajectory reg traj controllers = some parts ∧
      parts.length = controllers.length ∧
      ∀ (i : ℕ) c ci part, controllers[i]? = some c →
        reg.find? (fun x => x.name = c) = some ci →
        parts[i]? = some part →
        ((ci.joints.filter (fun j => j ∈ traj.jointTrajectory.jointNames) ≠ [] →
            part.jointTrajectory.points.length = traj.jointTrajectory.points.length ∧
            ∀ (k : ℕ) p q, part.jointTrajectory.points[k]? = some p →
              traj.jointTrajectory.points[k]? = some q →
              p.timeFromStart = q.timeFromStart) ∧
         (ci.joints.filter (fun j => j ∈ traj.multiDofTrajectory.jointNames) ≠ [] →
            part.multiDofTrajectory.points.length = traj.multiDofTrajectory.points.length ∧
            ∀ (k : ℕ) p q, part.multiDofTrajectory.points[k]? = some p →
              traj.multiDofTrajectory.points[k]? = some q →
              p.timeFromStart = q.timeFromStart) ∧
         (ci.joints.filter (fun j => j ∈ traj.jointTrajectory.jointNames) = [] →
          ci.joints.filter (fun j => j ∈ traj.multiDofTrajectory.jointNames) = [] →
          part = RobotTrajectory.empty)) := by
  have hsome : ∀ c ∈ controllers, (distributePart reg traj c).isSome := by
    intro c hc
    obtain ⟨ci, hci⟩ := Option.isSome_iff_exists.mp (hknown c hc)
    obtain ⟨part, hp, -⟩ := distributePart_props reg traj c ci hci
    simp [hp]
  obtain ⟨parts, hps, hlen, hget⟩ :=
    mapM_option_props (distributePart reg traj) controllers hsome
  refine ⟨parts, hps, hlen, ?_⟩
  intro i c ci part hcEl hci hpart
  have hip := hget i c hcEl
  obtain ⟨part2, hp2, props⟩ := distributePart_props reg traj c ci hci
  rw [hip, hp2] at hpart
  cases hpart
  exact props

/-- C9 witness: the split of the concrete two-point trajectory over the
concrete registry. -/
theorem c9_split_preserves_timestamps_witness :
    ∃ parts,
      distributeTrajectory exampleRegistry exampleTrajectory ["left", "right"] =
        some parts ∧
      parts.length = 2 ∧
      ∀ (i : ℕ) c ci part, ["left", "right"][i]? = some c →
        exampleRegistry.find? (fun x => x.name = c) = some ci →
        parts[i]? = some part →
        ((ci.joints.filter
            (fun j => j ∈ exampleTrajectory.jointTrajectory.jointNames) ≠ [] →
            part.jointTrajectory.points.length =
              exampleTrajectory.jointTrajectory.points.length ∧
            ∀ (k : ℕ) p q, part.jointTrajectory.points[k]? = some p →
              exampleTrajectory.jointTrajectory.points[k]? = some q →
              p.timeFromStart = q.timeFromStart) ∧
         (ci.joints.filter
            (fun j => j ∈ exampleTrajectory.multiDofTrajectory.jointNames) ≠ [] →
            part.multiDofTrajectory.points.length =
              exampleTrajectory.multiDofTrajectory.points.length ∧
            ∀ (k : ℕ) p q, part.multiDofTrajectory.points[k]? = some p →
              exampleTrajectory.multiDofTrajectory.points[k]? = some q →
              p.timeFromStart = q.timeFromStart) ∧
         (ci.joints.filter
            (fun j => j ∈ exampleTrajectory.jointTrajectory.jointNames) = [] →
          ci.joints.filter
            (fun j => j ∈ exampleTrajectory.multiDofTrajectory.jointNames) = [] →
          part = RobotTrajectory.empty)) :=
  c9_split_preserves_timestamps exampleRegistry exampleTrajectory
    ["left", "right"] (by with_unfolding_all decide)

theorem partExpectedDuration_eq_amended (t : ℚ) (p : RobotTrajectory) :
    partExpectedDuration t p = amendedPartDuration t p := by
  unfold partExpectedDuration amendedPartDuration
  split
  · rfl
  · dsimp only
    congr 1
    rcases lt_or_le t p.jointTrajectory.stamp with h1 | h1 <;>
      rcases lt_or_le t p.multiDofTrajectory.stamp with h2 | h2
    · rw [if_pos h1, if_pos h2,
        max_eq_left (show (0:ℚ) ≤ p.jointTrajectory.stamp - t by linarith),
        max_eq_left (show (0:ℚ) ≤ p.multiDofTrajectory.stamp - t by linarith)]
    · rw [if_pos h1, if_neg (not_lt.2 h2),
        max_eq_left (show (0:ℚ) ≤ p.jointTrajectory.stamp - t by linarith),
        max_eq_right (show p.multiDofTrajectory.stamp - t ≤ (0:ℚ) by linarith),
        max_eq_left (show (0:ℚ) ≤ p.jointTrajectory.stamp - t by linarith)]
    · rw [if_pos h2, if_neg (not_lt.2 h1),
        max_eq_right (show p.jointTrajectory.stamp - t ≤ (0:ℚ) by linarith),
        max_eq_left (show (0:ℚ) ≤ p.multiDofTrajectory.stamp - t by linarith)]
    · rw [if_neg (not_lt.2 h1), if_neg (not_lt.2 h2),
        max_eq_right (show p.jointTrajectory.stamp - t ≤ (0:ℚ) by linarith),
        max_eq_right (show p.multiDofTrajectory.stamp - t ≤ (0:ℚ) by linarith),
        max_self]

theorem foldl_max_map (f : RobotTrajectory → ℚ) (l : List RobotTrajectory) :
    ∀ a : ℚ, l.foldl (fun acc p => max (f p) acc) a = (l.map f).foldl max a := by
  induction l with
  | nil => intro a; rfl
  | cons p rest ih =>
    intro a
    simp only [List.foldl_cons, List.map_cons]
    rw [ih, max_comm]

theorem sendLoop_replicate_true (k : ℕ) (rest : List Bool) :
    ∀ n, sendLoop (List.replicate k true ++ false :: rest) n =
      (List.range' n (k+1), some (n + k)) := by
  induction k with
  | zero => intro n; simp [sendLoop, List.range']
  | succ m ih =>
    intro n
    rw [List.replicate_succ]
    simp only [List.cons_append, sendLoop, if_pos, List.append_eq]
    rw [ih (n+1)]
    simp [List.range']
    omega

/-- C10: if the completion flag is already set when the worker thread
starts, the thread records ABORTED (not PREEMPTED) and returns immediately:
the completion callback is not invoked, waiters are not notified, and the
queued trajectories are not cleared even when `auto_clear` is true. -/
theorem c10_worker_aborts_when_already_complete
    (contexts : List ExecutePartInput) (autoClear : Bool) :
    executeThread true contexts autoClear =
      { lastStatus := .aborted, queueCleared := false,
        callbackInvoked := false, notified := false } := rfl

/-- C8: if sending part `i` of a context fails (returns false or throws)
after parts `0 … i−1` were sent successfully, then exactly the parts
`0 … i−1` are cancelled, parts beyond `i` are never attempted, the active
handles are cleared, the status becomes ABORTED and the call reports
failure. -/
theorem c8_send_failure_cancels_previous_parts
    (st : WorkerState) (i : ℕ) (rest : List Bool)
    (waits : List HandleWaitBehaviour) (hst : st.complete = false) :
    executePart
      { ensureActiveOK := true,
        sendOK := List.replicate i true ++ false :: rest,
        waits := waits } st =
      { state := { complete := false, lastStatus := .aborted },
        returned := false,
        sentParts := List.range (i+1),
        cancelledParts := List.range i,
        activeHandles := [] } := by
  unfold executePart
  rw [if_neg (by simp), if_neg (by simp [hst])]
  rw [sendLoop_replicate_true i rest 0]
  simp [hst, List.range_eq_range']

/-- C8 witness: the failure of part 2 (after two successful sends) cancels
exactly parts 0 and 1 and aborts. -/
theorem c8_send_failure_cancels_previous_parts_witness :
    executePart
      { ensureActiveOK := true,
        sendOK := List.replicate 2 true ++ false :: [true],
        waits := [] } { complete := false, lastStatus := .succeeded } =
      { state := { complete := false, lastStatus := .aborted },
        returned := false,
        sentParts := List.range 3,
        cancelledParts := List.range 2,
        activeHandles := [] } :=
  c8_send_failure_cancels_previous_parts
    { complete := false, lastStatus := .succeeded } 2 [true] [] rfl

/-- C3 counterexample: for a part whose header stamp lies 1 s in the future
and whose last point has `time_from_start` 2 s, the source's budget is
`1.1·(1+2)+0.5 = 3.8` s — the claim's "larger of the two" formula gives
`1.1·2+0.5 = 2.7` s instead. -/
theorem c3_budget_formula_counterexample :
    expectedTrajectoryDuration 0
        [ { jointTrajectory :=
              { stamp := 1, jointNames := ["j1"],
                points := [{ timeFromStart := 2, positions := [0],
                             velocities := [], accelerations := [] }] },
            multiDofTrajectory :=
              { stamp := 0, jointNames := [], frameIds := [],
                childFrameIds := [], points := [] } } ] = 19/5 ∧
    claimExpectedDuration 0
        [ { jointTrajectory :=
              { stamp := 1, jointNames := ["j1"],
                points := [{ timeFromStart := 2, positions := [0],
                             velocities := [], accelerations := [] }] },
            multiDofTrajectory :=
              { stamp := 0, jointNames := [], frameIds := [],
                childFrameIds := [], points := [] } } ] = 27/10 ∧
    (19/5 : ℚ) ≠ 27/10 := by
  refine ⟨?_, ?_, by norm_num⟩ <;> with_unfolding_all decide

/-- C3 amended: the per-context budget equals 1.1 times the maximum over
parts of (the larger positive header-stamp offset PLUS the larger of the two
last points' `time_from_start`, with parts lacking single-DOF points
contributing 0), plus 0.5 s; and a handle whose wait fails while execution
is not complete and the budget is exceeded sets the terminal status to
TIMED_OUT (the wait loop stops with a failed result). -/
theorem c3_amended_budget_and_timeout :
    (∀ (t : ℚ) (parts : List RobotTrajectory),
      expectedTrajectoryDuration t parts = amendedExpectedDuration t parts) ∧
    (∀ (st : WorkerState) (result : Bool) (h : HandleWaitBehaviour)
        (rest : List HandleWaitBehaviour),
      st.complete = false → h.waitOK = false → h.extComplete = false →
      h.overBudget = true →
      waitLoop st result (h :: rest) =
        ({ complete := true, lastStatus := .timedOut }, false)) := by
  constructor
  · intro t parts
    unfold expectedTrajectoryDuration amendedExpectedDuration
    rw [foldl_max_map,
      List.map_congr_left (fun p _ => partExpectedDuration_eq_amended t p)]
  · intro st result h rest hc hw he hb
    unfold waitLoop
    simp [hc, hw, he, hb]

/-- C3 witness: the amended budget formula at the counterexample's part, and
the timeout transition at a concrete over-budget handle. -/
theorem c3_amended_budget_and_timeout_witness :
    expectedTrajectoryDuration 0 [] = amendedExpectedDuration 0 [] ∧
    waitLoop { complete := false, lastStatus := .succeeded } true
        [{ waitOK := false, overBudget := true, extComplete := false,
           status := .succeeded }] =
      ({ complete := true, lastStatus := .timedOut }, false) :=
  ⟨c3_amended_budget_and_timeout.1 0 [],
   c3_amended_budget_and_timeout.2
     { complete := false, lastStatus := .succeeded } true
     { waitOK := false, overBudget := true, extComplete := false,
       status := .succeeded } [] rfl rfl rfl rfl⟩


end TrajectoryExecution

namespace SbplInterface

theorem getSuccsLoop_eq_registerAll (env : EnvConfig) (gA sA : List ℚ) (g : ℕ) :
    ∀ (acts : List (ℕ × ℚ)) (i : ℕ) (d : PlanningData),
      getSuccsLoop env gA sA g acts i d =
        registerAll g (survivingCandidates env gA sA acts i) d := by
  intro acts
  induction acts with
  | nil => intro i d; rfl
  | cons act rest ih =>
    obtain ⟨j, delta⟩ := act
    intro i d
    unfold getSuccsLoop survivingCandidates
    cases hjm : env.joints[j]? with
    | none => exact ih (i+1) d
    | some jm =>
      dsimp only
      cases hgen : generateSuccessorState env.piQ jm sA j delta with
      | none => exact ih (i+1) d
      | some succAngles =>
        dsimp only
        by_cases hcol : env.collides succAngles = true
        · rw [if_pos hcol, if_pos hcol]
          exact ih (i+1) d
        · rw [if_neg hcol, if_neg hcol]
          cases hxyz : env.gridXYZ succAngles with
          | none => exact ih (i+1) d
          | some xyz =>
            dsimp only
            unfold registerAll registerCandidate
            dsimp only
            by_cases hmax : getJointDistanceIntegerMax env succAngles gA = 1
            · simp only [if_pos hmax]
              rw [ih]
            · simp only [if_neg hmax]
              cases hfind : getHashEntry d (convertJointAnglesToCoord succAngles) with
              | some e =>
                rw [ih]
              | none =>
                rw [ih]

/-- C6: from a non-goal in-range source state, `GetSuccs` is exactly the
claim's rule applied to the surviving candidates in action order: a
candidate whose max integer distance to the goal is 1 is returned with the
goal entry's state ID, every other candidate is looked up by its discretised
coord, and a fresh entry is added only when that lookup misses. -/
theorem c6_absorption_and_registration (env : EnvConfig) (d : PlanningData)
    (src g : ℕ) (srcEntry goalEntry : EnvChain3DHashEntry)
    (hg : d.goalID = some g) (hne : src ≠ g)
    (hlt : src < d.table.length)
    (hsrc : d.table[src]? = some srcEntry)
    (hgoal : d.table[g]? = some goalEntry) :
    getSuccs env d src =
      registerAll g
        (survivingCandidates env goalEntry.angles srcEntry.angles
          (possibleActions env) 0) d := by
  unfold getSuccs
  rw [hg]
  dsimp only
  rw [if_neg hne, if_neg (not_le.mpr hlt), hsrc]
  dsimp only
  rw [hgoal]
  dsimp only
  exact getSuccsLoop_eq_registerAll env goalEntry.angles srcEntry.angles g
    (possibleActions env) 0 d

/-- C6 witness: the equality at the concrete absorption example, where the
goal-identified candidate, a lookup miss and a fresh entry all occur. -/
theorem c6_absorption_and_registration_witness :
    getSuccs exampleAbsorbEnv exampleAbsorbData 0 =
      registerAll 1
        (survivingCandidates exampleAbsorbEnv
          (exampleAbsorbData.table.getD 1 dummyEntry).angles
          (exampleAbsorbData.table.getD 0 dummyEntry).angles
          (possibleActions exampleAbsorbEnv) 0) exampleAbsorbData :=
  c6_absorption_and_registration exampleAbsorbEnv exampleAbsorbData 0 1
    (exampleAbsorbData.table.getD 0 dummyEntry)
    (exampleAbsorbData.table.getD 1 dummyEntry)
    (by with_unfolding_all decide) (by decide)
    (by with_unfolding_all decide) (by with_unfolding_all decide)
    (by with_unfolding_all decide)

end SbplInterface

namespace TrajectoryExecution

theorem controllersOverlap_comm (reg : Registry) (a b : String) :
    controllersOverlap reg a b = controllersOverlap reg b a := by
  unfold controllersOverlap
  simp only [ne_eq, decide_eq_decide]
  constructor
  · rintro ⟨hne, hf⟩
    refine ⟨fun h => hne h.symm, fun h => hf ?_⟩
    rw [List.filter_eq_nil_iff] at h ⊢
    intro j hja hmem
    have hjb : j ∈ (findInfo reg b).joints := by
      simpa using hmem
    exact h j hjb (by simpa using hja)
  · rintro ⟨hne, hf⟩
    refine ⟨fun h => hne h.symm, fun h => hf ?_⟩
    rw [List.filter_eq_nil_iff] at h ⊢
    intro j hjb hmem
    have hja : j ∈ (findInfo reg a).joints := by
      simpa using hmem
    exact h j hja (by simpa using hjb)

theorem controllersOverlap_false_disjoint (reg : Registry) (a b : String)
    (hne : a ≠ b) (h : controllersOverlap reg a b = false) :
    ∀ j ∈ (findInfo reg a).joints, j ∉ (findInfo reg b).joints := by
  unfold controllersOverlap at h
  simp only [ne_eq, decide_eq_false_iff_not, not_and, not_not] at h
  intro j hja hjb
  have hf := h hne
  rw [List.filter_eq_nil_iff] at hf
  exact hf j hja (by simpa using hjb)

theorem checkControllerCombination_cover (reg : Registry) (sel J : List String)
    (h : checkControllerCombination reg sel J = true) :
    ∀ j ∈ J, ∃ n ∈ sel, j ∈ (findInfo reg n).joints := by
  unfold checkControllerCombination at h
  simp only [List.all_eq_true, decide_eq_true_eq, List.mem_flatMap] at h
  intro j hj
  exact h j hj

theorem gcc_sound (reg : Registry) (J : List String) (k : ℕ) :
    ∀ (avail selected : List String) (S : List String),
      S ∈ generateControllerCombination reg J k selected avail →
      ∃ T, S = selected ++ T ∧ T.Sublist avail ∧ S.length = k ∧
        checkControllerCombination reg S J = true ∧
        (∀ c ∈ T, ∀ s ∈ selected, controllersOverlap reg c s = false) ∧
        T.Pairwise (fun a b => controllersOverlap reg b a = false) := by
  intro avail
  induction avail with
  | nil =>
    intro selected S h
    unfold generateControllerCombination at h
    refine ⟨[], ?_⟩
    by_cases hlen : selected.length = k
    · rw [if_pos hlen] at h
      by_cases hchk : checkControllerCombination reg selected J = true
      · rw [if_pos hchk] at h
        rcases List.mem_singleton.mp h with rfl
        simp [hlen, hchk]
      · rw [if_neg hchk] at h
        exact absurd h (List.not_mem_nil S)
    · rw [if_neg hlen] at h
      exact absurd h (List.not_mem_nil S)
  | cons c rest ih =>
    intro selected S h
    unfold generateControllerCombination at h
    by_cases hlen : selected.length = k
    · rw [if_pos hlen] at h
      by_cases hchk : checkControllerCombination reg selected J = true
      · rw [if_pos hchk] at h
        rcases List.mem_singleton.mp h with rfl
        exact ⟨[], by simp [hlen, hchk]⟩
      · rw [if_neg hchk] at h
        exact absurd h (List.not_mem_nil S)
    · rw [if_neg hlen] at h
      rcases List.mem_append.mp h with hL | hR
      · by_cases hov : selected.any (fun s => controllersOverlap reg c s) = true
        · rw [if_pos hov] at hL
          exact absurd hL (List.not_mem_nil S)
        · rw [if_neg hov] at hL
          rcases ih (selected ++ [c]) S hL with
            ⟨T', hS, hsub, hlenS, hchkS, hno, hpw⟩
          refine ⟨c :: T', ?_, ?_, hlenS, hchkS, ?_, ?_⟩
          · rw [hS, List.append_assoc]; rfl
          · exact List.Sublist.cons₂ c hsub
          · intro x hx s hs
            rcases List.mem_cons.mp hx with rfl | hx'
            · have := List.any_eq_false.mp (Bool.not_eq_true _ ▸ hov) s hs
              simpa using this
            · exact hno x hx' s (List.mem_append_left _ hs)
          · refine List.Pairwise.cons ?_ hpw
            intro x hx
            exact hno x hx c (List.mem_append_right _ (List.mem_singleton.mpr rfl))
      · rcases ih selected S hR with ⟨T, hS, hsub, hlenS, hchkS, hno, hpw⟩
        exact ⟨T, hS, List.Sublist.cons c hsub, hlenS, hchkS, hno, hpw⟩

end TrajectoryExecution

namespace TrajectoryExecution

theorem gcc_complete (reg : Registry) (J : List String) (k : ℕ) :
    ∀ (avail selected T : List String),
      T.Sublist avail → (selected ++ T).length = k →
      checkControllerCombination reg (selected ++ T) J = true →
      (∀ c ∈ T, ∀ s ∈ selected, controllersOverlap reg c s = false) →
      T.Pairwise (fun a b => controllersOverlap reg b a = false) →
      (selected ++ T) ∈ generateControllerCombination reg J k selected avail := by
  intro avail
  induction avail with
  | nil =>
    intro selected T hsub hlen hchk _ _
    rcases List.sublist_nil.mp hsub with rfl
    rw [List.append_nil] at hlen hchk ⊢
    unfold generateControllerCombination
    rw [if_pos hlen, if_pos hchk]
    exact List.mem_singleton.mpr rfl
  | cons c rest ih =>
    intro selected T hsub hlen hchk hno hpw
    unfold generateControllerCombination
    by_cases hsel : selected.length = k
    · have hT : T = [] := by
        rw [List.length_append] at hlen
        exact List.eq_nil_of_length_eq_zero (by omega)
      subst hT
      rw [List.append_nil] at hchk ⊢
      rw [if_pos hsel, if_pos hchk]
      exact List.mem_singleton.mpr rfl
    · rw [if_neg hsel]
      rcases List.sublist_cons_iff.mp hsub with hrest | ⟨T', rfl, hrest⟩
      · exact List.mem_append_right _ (ih selected T hrest hlen hchk hno hpw)
      · refine List.mem_append_left _ ?_
        have hnov : (selected.any (fun s => controllersOverlap reg c s)) = false := by
          rw [List.any_eq_false]
          intro s hs
          simpa using hno c (List.mem_cons_self c T') s hs
        rw [if_neg (by simp [hnov])]
        have heq : selected ++ c :: T' = (selected ++ [c]) ++ T' := by
          rw [List.append_assoc]; rfl
        rw [heq] at hlen hchk ⊢
        refine ih (selected ++ [c]) T' hrest hlen hchk ?_ (List.Pairwise.of_cons hpw)
        intro x hx s hs
        rcases List.mem_append.mp hs with hs' | hs'
        · exact hno x (List.mem_cons_of_mem c hx) s hs'
        · rcases List.mem_singleton.mp hs' with rfl
          exact (List.pairwise_cons.mp hpw).1 x hx

theorem findControllers_mem (reg : Registry) (m : Bool) (J : List String)
    (k : ℕ) (A : List String) (S : List String)
    (h : findControllers reg m J k A = some S) :
    S ∈ generateControllerCombination reg J k [] A := by
  unfold findControllers at h
  cases hopts : generateControllerCombination reg J k [] A with
  | nil => rw [hopts] at h; exact absurd h (by simp)
  | cons a t =>
    cases t with
    | nil =>
      rw [hopts] at h
      simp only [Option.some.injEq] at h
      exact List.mem_singleton.mpr h.symm
    | cons b t' =>
      rw [hopts] at h
      dsimp only at h
      have hperm := List.perm_insertionSort (rankBefore reg) (a :: b :: t')
      by_cases hm : ¬m = true
      · rw [if_pos hm] at h
        cases hfind : ((a :: b :: t').insertionSort (rankBefore reg)).find?
            (fun o => areControllersActive reg o) with
        | some o =>
          rw [hfind] at h
          simp only [Option.some.injEq] at h
          subst h
          exact hperm.mem_iff.mp (List.mem_of_find?_eq_some hfind)
        | none =>
          rw [hfind] at h
          cases hsort : (a :: b :: t').insertionSort (rankBefore reg) with
          | nil => exact absurd (hsort ▸ hperm) (by simp)
          | cons x xs =>
            rw [hsort] at h
            simp only [List.head?_cons, Option.some.injEq] at h
            subst h
            exact hperm.mem_iff.mp (hsort ▸ List.mem_cons_self x xs)
      · rw [if_neg hm] at h
        cases hsort : (a :: b :: t').insertionSort (rankBefore reg) with
        | nil => exact absurd (hsort ▸ hperm) (by simp)
        | cons x xs =>
          rw [hsort] at h
          simp only [List.head?_cons, Option.some.injEq] at h
          subst h
          exact hperm.mem_iff.mp (hsort ▸ List.mem_cons_self x xs)

theorem findControllers_isSome_of_mem (reg : Registry) (m : Bool)
    (J : List String) (k : ℕ) (A : List String) (S0 : List String)
    (h : S0 ∈ generateControllerCombination reg J k [] A) :
    ∃ S, findControllers reg m J k A = some S := by
  unfold findControllers
  cases hopts : generateControllerCombination reg J k [] A with
  | nil => rw [hopts] at h; exact absurd h (List.not_mem_nil S0)
  | cons a t =>
    cases t with
    | nil => exact ⟨a, rfl⟩
    | cons b t' =>
      dsimp only
      have hperm := List.perm_insertionSort (rankBefore reg) (a :: b :: t')
      by_cases hm : ¬m = true
      · rw [if_pos hm]
        cases hfind : ((a :: b :: t').insertionSort (rankBefore reg)).find?
            (fun o => areControllersActive reg o) with
        | some o => exact ⟨o, rfl⟩
        | none =>
          cases hsort : (a :: b :: t').insertionSort (rankBefore reg) with
          | nil => exact absurd (hsort ▸ hperm) (by simp)
          | cons x xs => exact ⟨x, rfl⟩
      · rw [if_neg hm]
        cases hsort : (a :: b :: t').insertionSort (rankBefore reg) with
        | nil => exact absurd (hsort ▸ hperm) (by simp)
        | cons x xs => exact ⟨x, rfl⟩

theorem findControllers_length (reg : Registry) (m : Bool) (J : List String)
    (k : ℕ) (A : List String) (S : List String)
    (h : findControllers reg m J k A = some S) : S.length = k := by
  rcases gcc_sound reg J k A [] S (findControllers_mem reg m J k A S h) with
    ⟨T, hS, _, hlen, _, _, _⟩
  exact hlen

end TrajectoryExecution

namespace TrajectoryExecution

theorem searchActiveOption_mem (reg : Registry) (J A : List String) :
    ∀ (fuel j : ℕ) (S : List String),
      searchActiveOption reg J A j fuel = some S →
      ∃ k, findControllers reg false J k A = some S := by
  intro fuel
  induction fuel with
  | zero => intro j S h; exact absurd h (by simp [searchActiveOption])
  | succ f ih =>
    intro j S h
    unfold searchActiveOption at h
    cases hf : findControllers reg false J j A with
    | some opt =>
      rw [hf] at h
      dsimp only at h
      by_cases hact : areControllersActive reg opt = true
      · rw [if_pos hact] at h
        simp only [Option.some.injEq] at h
        exact ⟨j, h ▸ hf⟩
      · rw [if_neg hact] at h
        exact ih (j+1) S h
    | none =>
      rw [hf] at h
      exact ih (j+1) S h

theorem selectLoop_mem (reg : Registry) (m : Bool) (J A : List String) :
    ∀ (fuel i : ℕ) (S : List String),
      selectControllersLoop reg m J A i fuel = some S →
      ∃ (k : ℕ) (m' : Bool), findControllers reg m' J k A = some S := by
  intro fuel
  induction fuel with
  | zero => intro i S h; exact absurd h (by simp [selectControllersLoop])
  | succ f ih =>
    intro i S h
    unfold selectControllersLoop at h
    cases hf : findControllers reg m J i A with
    | some sel =>
      rw [hf] at h
      dsimp only at h
      by_cases hc : ¬m = true ∧ ¬areControllersActive reg sel = true
      · rw [if_pos hc] at h
        cases hs : searchActiveOption reg J A (i+1) (A.length - i) with
        | some other =>
          rw [hs] at h
          simp only [Option.some.injEq] at h
          rcases searchActiveOption_mem reg J A (A.length - i) (i+1) other hs with
            ⟨k, hk⟩
          exact ⟨k, false, h ▸ hk⟩
        | none =>
          rw [hs] at h
          simp only [Option.some.injEq] at h
          exact ⟨i, m, h ▸ hf⟩
      · rw [if_neg hc] at h
        simp only [Option.some.injEq] at h
        exact ⟨i, m, h ▸ hf⟩
    | none =>
      rw [hf] at h
      exact ih (i+1) S h

theorem selectLoop_manage_first (reg : Registry) (J A : List String) :
    ∀ (fuel i : ℕ) (S : List String),
      selectControllersLoop reg true J A i fuel = some S →
      findControllers reg true J S.length A = some S ∧
        ∀ k, i ≤ k → k < S.length → findControllers reg true J k A = none := by
  intro fuel
  induction fuel with
  | zero => intro i S h; exact absurd h (by simp [selectControllersLoop])
  | succ f ih =>
    intro i S h
    unfold selectControllersLoop at h
    cases hf : findControllers reg true J i A with
    | some sel =>
      rw [hf] at h
      dsimp only at h
      rw [if_neg (by simp)] at h
      simp only [Option.some.injEq] at h
      rw [← h]
      have hlen : sel.length = i := findControllers_length reg true J i A sel hf
      refine ⟨by rw [hlen]; exact hf, ?_⟩
      intro k hik hk
      rw [hlen] at hk
      omega
    | none =>
      rw [hf] at h
      rcases ih (i+1) S h with ⟨h1, h2⟩
      refine ⟨h1, ?_⟩
      intro k hik hk
      rcases Nat.eq_or_lt_of_le hik with rfl | hlt
      · exact hf
      · exact h2 k hlt hk

end TrajectoryExecution

namespace TrajectoryExecution

/-- C4 counterexample: with unmanaged controllers the selection replaces the
minimal option by a larger fully-active one.  Here selection returns the
two-controller option `["B", "C"]` although `["A"]` is a pairwise-disjoint
covering subset of the available controllers of size 1, so the returned
cardinality is not minimal. -/
theorem c4_minimality_counterexample :
    selectControllers exampleSelRegistry false ["j1", "j2"] ["A", "B", "C"]
        = some ["B", "C"] ∧
    (["A"] : List String).Sublist ["A", "B", "C"] ∧
    (["A"] : List String).Pairwise
      (fun a b => controllersOverlap exampleSelRegistry a b = false) ∧
    checkControllerCombination exampleSelRegistry ["A"] ["j1", "j2"] = true ∧
    (["A"] : List String).length < (["B", "C"] : List String).length := by
  refine ⟨?_, ?_, ?_, ?_, ?_⟩ <;> with_unfolding_all decide

/-- C4 (amended): a successful selection covers the actuated joints, is a
subsequence of the available list, and distinct selected controllers share no
joint; and when controllers are managed the selected cardinality is minimal
over all nonempty pairwise-non-overlapping covering subsequences of the
available list.  (With unmanaged controllers minimality fails: an already
active larger option is preferred.) -/
theorem c4_amended_selection_properties (reg : Registry) (manage : Bool)
    (J A S : List String) (h : selectControllers reg manage J A = some S) :
    (∀ j ∈ J, ∃ n ∈ S, j ∈ (findInfo reg n).joints) ∧
    S.Sublist A ∧
    (∀ a ∈ S, ∀ b ∈ S, a ≠ b → ∀ j ∈ (findInfo reg a).joints,
      j ∉ (findInfo reg b).joints) ∧
    (manage = true → ∀ T : List String, T ≠ [] → T.Sublist A →
      T.Pairwise (fun a b => controllersOverlap reg a b = false) →
      checkControllerCombination reg T J = true → S.length ≤ T.length) := by
  unfold selectControllers at h
  rcases selectLoop_mem reg manage J A A.length 1 S h with ⟨k, m', hfc⟩
  rcases gcc_sound reg J k A [] S (findControllers_mem reg m' J k A S hfc) with
    ⟨T, hS, hsub, hlen, hchk, _, hpw⟩
  have hST : S = T := by simpa using hS
  rw [← hST] at hsub hpw
  have hsymm : Symmetric (fun a b : String => controllersOverlap reg a b = false) := by
    intro x y hxy
    rw [controllersOverlap_comm]
    exact hxy
  refine ⟨checkControllerCombination_cover reg S J hchk, hsub, ?_, ?_⟩
  · have hpw' : S.Pairwise (fun a b => controllersOverlap reg a b = false) :=
      hpw.imp (fun hab => by rw [controllersOverlap_comm]; exact hab)
    intro a ha b hb hne
    exact controllersOverlap_false_disjoint reg a b hne
      (List.Pairwise.forall hsymm hpw' ha hb hne)
  · intro hm T0 hT0ne hT0sub hT0pw hT0chk
    rw [hm] at h
    rcases selectLoop_manage_first reg J A A.length 1 S h with ⟨hfS, hnone⟩
    have hT0pw' : T0.Pairwise (fun a b => controllersOverlap reg b a = false) :=
      hT0pw.imp (fun hab => by rw [controllersOverlap_comm]; exact hab)
    have hmem0 : ([] ++ T0) ∈ generateControllerCombination reg J T0.length [] A :=
      gcc_complete reg J T0.length A [] T0 hT0sub (by simp)
        (by simpa using hT0chk)
        (by intro c _ s hs; exact absurd hs (List.not_mem_nil s)) hT0pw'
    rw [List.nil_append] at hmem0
    rcases findControllers_isSome_of_mem reg true J T0.length A T0 hmem0 with
      ⟨R, hR⟩
    by_contra hlt
    push_neg at hlt
    have h1le : 1 ≤ T0.length := by
      cases T0 with
      | nil => exact absurd rfl hT0ne
      | cons x xs => simp
    rw [hnone T0.length h1le hlt] at hR
    exact absurd hR (by simp)

/-- C4 witness: with managed controllers the same registry selects the
single covering controller `["A"]`, and the amended properties hold there. -/
theorem c4_amended_selection_properties_witness :
    selectControllers exampleSelRegistry true ["j1", "j2"] ["A", "B", "C"]
        = some ["A"] ∧
    ((∀ j ∈ (["j1", "j2"] : List String), ∃ n ∈ (["A"] : List String),
        j ∈ (findInfo exampleSelRegistry n).joints) ∧
      (["A"] : List String).Sublist ["A", "B", "C"] ∧
      (∀ a ∈ (["A"] : List String), ∀ b ∈ (["A"] : List String), a ≠ b →
        ∀ j ∈ (findInfo exampleSelRegistry a).joints,
          j ∉ (findInfo exampleSelRegistry b).joints) ∧
      (true = true → ∀ T : List String, T ≠ [] → T.Sublist ["A", "B", "C"] →
        T.Pairwise
          (fun a b => controllersOverlap exampleSelRegistry a b = false) →
        checkControllerCombination exampleSelRegistry T ["j1", "j2"] = true →
        (["A"] : List String).length ≤ T.length)) :=
  ⟨by with_unfolding_all decide,
   c4_amended_selection_properties exampleSelRegistry true ["j1", "j2"]
     ["A", "B", "C"] ["A"] (by with_unfolding_all decide)⟩

end TrajectoryExecution
